import Mathlib

set_option maxHeartbeats 1000000

/-!
Shallow embedding of the chat-extraction pipeline of cursor-view's
src/server.py.  JSON values are modelled by an inductive JValue; Python
dictionary/attribute semantics (truthiness, the .get method raising
AttributeError on non-dicts, the in operator, str.strip, slicing) are
modelled by small Except-valued helpers so that uncaught Python
exceptions are visible as Except.error.  SQLite tables are modelled as
association lists of (key, stored value) rows where a stored value is
either SQL NULL, a string that fails json.loads, or a parsed JSON value;
filesystem discovery of workspace databases and of the global database
(external collaborators per the spec) is abstracted into an environment
record, and the md5 hex digest used for synthetic aiService session ids
is a function parameter of the environment.
-/

/-- A parsed JSON value (Python object after json.loads).  Numbers are
modelled as integers; the object field list represents the already
de-duplicated Python dict in insertion order. -/
inductive JValue where
  | null
  | bool (b : Bool)
  | num (n : Int)
  | str (s : String)
  | arr (elems : List JValue)
  | obj (fields : List (String × JValue))

/-- Python exception kinds that can escape the modelled code. -/
inductive PyErr where
  | typeError
  | attributeError
  | keyError
  | runtimeError

/-- Python truthiness of a JSON value. -/
def truthy : JValue → Bool
  | .null => false
  | .bool b => b
  | .num n => n != 0
  | .str s => !s.isEmpty
  | .arr xs => !xs.isEmpty
  | .obj fs => !fs.isEmpty

/-- First binding of a key in a JSON object's field list (Python dict lookup). -/
def dictFind? (fs : List (String × JValue)) (k : String) : Option JValue :=
  (fs.find? (fun e => e.1 == k)).map (fun e => e.2)

/-- Python d.get(k): returns None (null) when the key is absent and raises
AttributeError when the receiver is not a dict. -/
def JValue.pyGet : JValue → String → Except PyErr JValue
  | .obj fs, k => .ok ((dictFind? fs k).getD .null)
  | _, _ => .error .attributeError

/-- Python d.get(k, default) with an explicit default. -/
def JValue.pyGetD : JValue → String → JValue → Except PyErr JValue
  | .obj fs, k, d => .ok ((dictFind? fs k).getD d)
  | _, _, _ => .error .attributeError

/-- Python d[k] with a string key: KeyError when absent on a dict,
TypeError on any non-dict receiver. -/
def JValue.pySub : JValue → String → Except PyErr JValue
  | .obj fs, k =>
    match dictFind? fs k with
    | some v => .ok v
    | none => .error .keyError
  | _, _ => .error .typeError

/-- Python v == s for a string literal s: only a str compares equal. -/
def pyEqStr : JValue → String → Bool
  | .str t, s => t == s
  | _, _ => false

/-- Python v == n for an integer literal n: ints compare directly and
bools coerce (True == 1, False == 0). -/
def pyEqInt : JValue → Int → Bool
  | .num m, n => m == n
  | .bool b, n => (if b then (1 : Int) else 0) == n
  | _, _ => false

/-- Characters of a string taken from the front (Python s[:n]). -/
def strTake (s : String) (n : Nat) : String := String.mk (s.toList.take n)

/-- Characters of a string dropped from the front (Python s[n:]). -/
def strDrop (s : String) (n : Nat) : String := String.mk (s.toList.drop n)

/-- Python s.startswith(p). -/
def strStartsWith (s p : String) : Bool := p.toList.isPrefixOf s.toList

/-- Python s.strip(): whitespace removed from both ends. -/
def strTrim (s : String) : String :=
  String.mk (((s.toList.dropWhile Char.isWhitespace).reverse.dropWhile
    Char.isWhitespace).reverse)

/-- Left-to-right non-overlapping split on a non-empty separator, with
enough fuel to consume the whole input (Python s.split(sep) and the
splitOn semantics the source relies on). -/
def splitOnGo (needle : List Char) : Nat → List Char → List Char → List (List Char)
  | 0, _, acc => [acc.reverse]
  | _ + 1, [], acc => [acc.reverse]
  | fuel + 1, c :: t, acc =>
    if needle ≠ [] ∧ needle.isPrefixOf (c :: t) then
      acc.reverse :: splitOnGo needle fuel ((c :: t).drop needle.length) []
    else splitOnGo needle fuel t (c :: acc)

/-- Python s.split(sep) for a non-empty separator. -/
def strSplitOn (s sep : String) : List String :=
  (splitOnGo sep.toList s.toList.length s.toList []).map String.mk

/-- Substring occurrence test. -/
def containsSubChars (hay needle : List Char) : Bool :=
  match hay with
  | [] => needle.isEmpty
  | _ :: t => needle.isPrefixOf hay || containsSubChars t needle

/-- Substring test, Python needle in hay for strings (empty needle is in
every string). -/
def strContainsSub (hay needle : String) : Bool :=
  needle.isEmpty || containsSubChars hay.toList needle.toList

/-- Python needle in container for a string needle: dict keys, list
membership by ==, substring for str, TypeError otherwise. -/
def pyInJ (needle : String) : JValue → Except PyErr Bool
  | .obj fs => .ok ((dictFind? fs needle).isSome)
  | .arr xs => .ok (xs.any (fun x => pyEqStr x needle))
  | .str s => .ok (strContainsSub s needle)
  | _ => .error .typeError

/-- Python iteration: list elements, characters of a str, keys of a dict;
TypeError on null/bool/num. -/
def pyIter : JValue → Except PyErr (List JValue)
  | .arr xs => .ok xs
  | .str s => .ok (s.toList.map (fun c => .str (String.mk [c])))
  | .obj fs => .ok (fs.map (fun e => .str e.1))
  | _ => .error .typeError

/-- Python v.strip(): trims whitespace on a str, AttributeError otherwise. -/
def pyStrip : JValue → Except PyErr String
  | .str s => .ok (strTrim s)
  | _ => .error .attributeError

/-- Python v.startswith(p): AttributeError on a non-str receiver. -/
def pyStartsWith : JValue → String → Except PyErr Bool
  | .str s, p => .ok (strStartsWith s p)
  | _, _ => .error .attributeError

/-- Python a or b: the first operand when truthy, else the second. -/
def pyOr (a b : JValue) : JValue := if truthy a then a else b

/-- Models the f-string pre + cid[:8] used for synthesized chat titles:
slicing is only defined on str here (the receiver is known hashable at
every call site, and slicing null/bool/num raises TypeError). -/
def pySliceTitle (pre : String) : JValue → Except PyErr String
  | .str s => .ok (pre ++ strTake s 8)
  | _ => .error .typeError

/-- Canonical form of a hashable dict key: Python hashes bools and ints
together (True == 1), strings apart; lists and dicts are unhashable. -/
inductive HKey where
  | hnull
  | hint (n : Int)
  | hstr (s : String)
deriving DecidableEq

/-- Hash-key view of a JSON value, none for unhashable list/dict. -/
def hashKey : JValue → Option HKey
  | .null => some .hnull
  | .bool b => some (.hint (if b then 1 else 0))
  | .num n => some (.hint n)
  | .str s => some (.hstr s)
  | _ => none

/-- Python dict key equality (== restricted to hashable keys, with the
bool/int identification); false when either side is unhashable. -/
def keyEq (a b : JValue) : Bool :=
  match hashKey a, hashKey b with
  | some x, some y => x = y
  | _, _ => false

/-- An insertion-ordered Python dict with JValue keys. -/
def PyDict (α : Type) : Type := List (JValue × α)

/-- Dict lookup by key equality (first, hence unique, matching entry). -/
def dFind? {α : Type} (d : PyDict α) (k : JValue) : Option α :=
  (d.find? (fun e => keyEq e.1 k)).map (fun e => e.2)

/-- Python k in d: TypeError on an unhashable key. -/
def dContains {α : Type} (d : PyDict α) (k : JValue) : Except PyErr Bool :=
  if (hashKey k).isSome then .ok (d.any (fun e => keyEq e.1 k))
  else .error .typeError

/-- Update-in-place or append, preserving insertion order and the
originally stored key object, as CPython dicts do. -/
def dSetGo {α : Type} (d : PyDict α) (k : JValue) (v : α) : PyDict α :=
  match d with
  | [] => [(k, v)]
  | e :: es => if keyEq e.1 k then (e.1, v) :: es else e :: dSetGo es k v

/-- Python d[k] = v: TypeError on an unhashable key. -/
def dSet {α : Type} (d : PyDict α) (k : JValue) (v : α) : Except PyErr (PyDict α) :=
  if (hashKey k).isSome then .ok (dSetGo d k v)
  else .error .typeError

/-- A stored SQLite value: SQL NULL, a payload json.loads rejects, or a
parsed JSON value. -/
inductive Raw where
  | sqlNull
  | malformed
  | json (v : JValue)

/-- One SQLite database file.  openErr models a connection/query-level
sqlite3.DatabaseError; a missing table is a none table (queries against
it also raise sqlite3.DatabaseError, which every reader catches). -/
structure Db where
  path : String
  openErr : Bool
  itemTable : Option (List (String × Raw))
  diskKV : Option (List (String × Raw))

/-- Models helper j (server.py lines 42-49): fetch the first row with the
key and json.loads it, returning None (here none) when the row is absent,
NULL, or fails to parse. -/
def jlookup (tbl : List (String × Raw)) (key : String) : Option JValue :=
  match tbl.find? (fun e => e.1 == key) with
  | some (_, .json v) => some v
  | _ => none

/-- One yielded record (sessionId, role, text, db_path).  role and text
stay JValue because the composer-document reader passes both through
from the stored document unchecked. -/
structure MsgRec where
  cid : JValue
  role : JValue
  text : JValue
  path : String

/-- The ItemTable key of the tabbed-chat view document. -/
def chatdataKey : String := "workbench.panel.aichat.view.aichat.chatdata"

/-- The ItemTable key of the composer-data document. -/
def composerDataKey : String := "composer.composerData"

/-- One cursorDiskKV bubble row (server.py lines 69-83): the value is
skipped when NULL or unparseable, but a parsed non-dict value raises
AttributeError at b.get, outside the try block. -/
def bubbleRow (path : String) (kv : String × Raw) : Except PyErr (List MsgRec) :=
  match kv.2 with
  | .sqlNull => .ok []
  | .malformed => .ok []
  | .json b => do
    let t1 ← b.pyGet "text"
    let t2 ← b.pyGet "richText"
    let txt ← pyStrip (pyOr (pyOr t1 t2) (.str ""))
    if txt.isEmpty then pure []
    else do
      let ty ← b.pyGet "type"
      let role := if pyEqInt ty 1 then "user" else "assistant"
      let cid := (strSplitOn kv.1 ":").getD 1 ""
      pure [{cid := .str cid, role := .str role, text := .str txt, path}]

/-- Models iter_bubbles_from_disk_kv (server.py lines 51-85): scans
cursorDiskKV rows whose key starts with the bubbleId prefix; a database
error or missing table yields nothing. -/
def iter_bubbles_from_disk_kv (db : Db) : Except PyErr (List MsgRec) :=
  if db.openErr then .ok []
  else
    match db.diskKV with
    | none => .ok []
    | some rows => do
      let ls ← (rows.filter (fun kv => strStartsWith kv.1 "bubbleId:")).mapM (bubbleRow db.path)
      pure ls.flatten

/-- Content extraction for one workspace-reader bubble (server.py lines
104-109): the text field, else the content field, else the empty string. -/
def tabBubbleText (bubble : JValue) (hasText : Bool) : Except PyErr JValue :=
  if hasText then bubble.pySub "text"
  else
    match pyInJ "content" bubble with
    | .error e => .error e
    | .ok hc => if hc then bubble.pySub "content" else .ok (.str "")

/-- One bubble of a tabbed-chat tab in the workspace reader (server.py
lines 99-113): a missing or falsy type discriminator skips the bubble. -/
def tabBubble (tabId : JValue) (path : String) (bubble : JValue) : Except PyErr (List MsgRec) := do
  let bty ← bubble.pyGet "type"
  if !truthy bty then pure []
  else do
    let hasText ← pyInJ "text" bubble
    let text ← tabBubbleText bubble hasText
    match text with
    | .str s =>
      if s.isEmpty then pure []
      else
        pure [{cid := tabId,
               role := .str (if pyEqStr bty "user" then "user" else "assistant"),
               text := .str s, path}]
    | _ => pure []

/-- The tabbed-chat shape of iter_chat_from_item_table (server.py lines
94-115): the whole shape is skipped when the document is absent, falsy,
or lacks a tabs key. -/
def tabsPart (tbl : List (String × Raw)) (path : String) : Except PyErr (List MsgRec) :=
  match jlookup tbl chatdataKey with
  | none => .ok []
  | some cd =>
    if !truthy cd then .ok []
    else do
      let has ← pyInJ "tabs" cd
      if !has then pure []
      else do
        let tabsJ ← cd.pyGetD "tabs" (.arr [])
        let tabs ← pyIter tabsJ
        let ls ← tabs.mapM (fun tab => do
          let tid ← tab.pyGetD "tabId" (.str "unknown")
          let bsJ ← tab.pyGetD "bubbles" (.arr [])
          let bs ← pyIter bsJ
          let ms ← bs.mapM (tabBubble tid path)
          pure ms.flatten)
        pure ls.flatten

/-- One message of a composer document's flat messages list (server.py
lines 123-127): the stored role is passed through with default
"unknown", and any truthy content is yielded unchecked. -/
def composerMsg (cid : JValue) (path : String) (msg : JValue) : Except PyErr (List MsgRec) := do
  let role ← msg.pyGetD "role" (.str "unknown")
  let content ← msg.pyGetD "content" (.str "")
  if truthy content then pure [{cid, role, text := content, path}] else pure []

/-- The composer-document shape of iter_chat_from_item_table (server.py
lines 117-129). -/
def composerPart (tbl : List (String × Raw)) (path : String) : Except PyErr (List MsgRec) :=
  match jlookup tbl composerDataKey with
  | none => .ok []
  | some cdata =>
    if !truthy cdata then .ok []
    else do
      let allJ ← cdata.pyGetD "allComposers" (.arr [])
      let comps ← pyIter allJ
      let ls ← comps.mapM (fun comp => do
        let cid ← comp.pyGetD "composerId" (.str "unknown")
        let msgsJ ← comp.pyGetD "messages" (.arr [])
        let msgs ← pyIter msgsJ
        let ms ← msgs.mapM (composerMsg cid path)
        pure ms.flatten)
      pure ls.flatten

/-- One item of an aiService.prompts list (server.py lines 145-151):
yields a stripped user message. -/
def promptItem (aiId path : String) (item : JValue) : Except PyErr (List MsgRec) := do
  let has ← pyInJ "text" item
  if !has then pure []
  else do
    let t ← item.pyGet "text"
    if !truthy t then pure []
    else do
      let t2 ← item.pyGetD "text" (.str "")
      let text ← pyStrip t2
      if text.isEmpty then pure []
      else pure [{cid := .str aiId, role := .str "user", text := .str text, path}]

/-- One aiService.prompts row (server.py lines 140-154): a NULL value
reaches json.loads(None), a TypeError the except json.JSONDecodeError
clause does not catch; an unparseable value is caught and skipped; a
parsed non-list value is skipped by the isinstance check. -/
def promptsRow (aiId path : String) (kv : String × Raw) : Except PyErr (List MsgRec) :=
  match kv.2 with
  | .sqlNull => .error .typeError
  | .malformed => .ok []
  | .json data =>
    match data with
    | .arr items => do
      let ls ← items.mapM (promptItem aiId path)
      pure ls.flatten
    | _ => .ok []

/-- The legacy prompt-log shape of iter_chat_from_item_table (server.py
lines 137-156). -/
def promptsPart (aiId : String) (tbl : List (String × Raw)) (path : String) :
    Except PyErr (List MsgRec) := do
  let ls ← (tbl.filter (fun kv => strStartsWith kv.1 "aiService.prompts")).mapM
    (promptsRow aiId path)
  pure ls.flatten

/-- One item of an aiService.generations list (server.py lines 168-175):
a non-empty textDescription yields a user message; the generationUUID is
sliced for logging, so an unsliceable (non-str, non-list) value raises
TypeError. -/
def generationItem (aiId path : String) (item : JValue) : Except PyErr (List MsgRec) := do
  let has ← pyInJ "textDescription" item
  if !has then pure []
  else do
    let t ← item.pyGet "textDescription"
    if !truthy t then pure []
    else do
      let t2 ← item.pyGetD "textDescription" (.str "")
      let text ← pyStrip t2
      if text.isEmpty then pure []
      else do
        let gu ← item.pyGetD "generationUUID" (.str "unknown")
        match gu with
        | .str _ => pure [{cid := .str aiId, role := .str "user", text := .str text, path}]
        | .arr _ => pure [{cid := .str aiId, role := .str "user", text := .str text, path}]
        | _ => .error .typeError

/-- One aiService.generations row (server.py lines 162-178), with the
same per-row error behaviour as the prompts rows. -/
def generationsRow (aiId path : String) (kv : String × Raw) : Except PyErr (List MsgRec) :=
  match kv.2 with
  | .sqlNull => .error .typeError
  | .malformed => .ok []
  | .json data =>
    match data with
    | .arr items => do
      let ls ← items.mapM (generationItem aiId path)
      pure ls.flatten
    | _ => .ok []

/-- The legacy generation-log shape of iter_chat_from_item_table
(server.py lines 158-180): every yielded record is a user message. -/
def generationsPart (aiId : String) (tbl : List (String × Raw)) (path : String) :
    Except PyErr (List MsgRec) := do
  let ls ← (tbl.filter (fun kv => strStartsWith kv.1 "aiService.generations")).mapM
    (generationsRow aiId path)
  pure ls.flatten

/-- Models iter_chat_from_item_table (server.py lines 87-187): reads the
four ItemTable shapes in order; a database-level error (open failure or
missing ItemTable) is caught and yields nothing, while any other
exception escapes the generator.  md5hex8 abstracts hashlib.md5
hexdigest of the database path. -/
def iter_chat_from_item_table (md5hex8 : String → String) (db : Db) :
    Except PyErr (List MsgRec) :=
  if db.openErr then .ok []
  else
    match db.itemTable with
    | none => .ok []
    | some tbl => do
      let a ← tabsPart tbl db.path
      let b ← composerPart tbl db.path
      let aiId := "aiService-" ++ strTake (md5hex8 db.path) 8
      let c ← promptsPart aiId tbl db.path
      let d ← generationsPart aiId tbl db.path
      pure (a ++ b ++ c ++ d)

/-- Models iter_composer_data (server.py lines 189-220): every row-level
exception is caught inside the per-row try, so the reader is total and
yields (composerId, parsed document, db path) for each parseable
composerData row. -/
def iter_composer_data (db : Db) : List (String × JValue × String) :=
  if db.openErr then []
  else
    match db.diskKV with
    | none => []
    | some rows =>
      (rows.filter (fun kv => strStartsWith kv.1 "composerData:")).filterMap (fun kv =>
        match kv.2 with
        | .json v => some ((strSplitOn kv.1 ":").getD 1 "", v, db.path)
        | _ => none)

/-- The home-directory container names of server.py line 245. -/
def homeDirPatterns : List String := ["Users", "home"]

/-- The known project names of server.py line 264. -/
def knownProjects : List String :=
  ["genaisf", "cursor-view", "cursor", "cursor-apps", "universal-github", "inquiry"]

/-- The generic project-container directory names of server.py line 300. -/
def projectContainers : List String :=
  ["Documents", "Projects", "Code", "workspace", "repos", "git", "src", "codebase"]

/-- The system directory names of server.py line 312. -/
def systemDirs : List String := ["Library", "Applications", "System", "var", "opt", "tmp"]

/-- Non-empty path segments of a slash-separated path (server.py line 241). -/
def toParts (rootPath : String) : List String :=
  (strSplitOn rootPath "/").filter (fun p => p ≠ "")

/-- Index of the first segment that is a home-directory container. -/
def firstHomeIdx : List String → Option Nat
  | [] => none
  | p :: ps =>
    if homeDirPatterns.contains p then some 0
    else (firstHomeIdx ps).map (fun i => i + 1)

/-- username_index of server.py lines 251-255: one past the first
home-container segment, none standing for -1. -/
def userIdx (parts : List String) : Option Nat :=
  (firstHomeIdx parts).map (fun i => i + 1)

/-- Python list.index for the call sites where the element is present
(returns the list length when absent, matching findIdx semantics). -/
def firstIdxOf (x : String) : List String → Nat
  | [] => 0
  | p :: ps => if p = x then 0 else firstIdxOf x ps + 1

/-- First segment after the username that is neither a system directory
nor a project container (server.py lines 310-318). -/
def sysScan (parts : List String) (u : Nat) : Option String :=
  (parts.drop (u + 1)).find? (fun p =>
    !(systemDirs.contains p) && !(projectContainers.contains p))

/-- The main branch of extract_project_name_from_path (server.py lines
262-318), entered when a home container was found with at least two
segments after it; none models a still-unset project_name. -/
def mainPN (username : String) (parts : List String) (u : Nat) : Option String :=
  let pn0 : Option String :=
    ((parts.drop (u + 1)).reverse).find? (fun p => knownProjects.contains p)
  let pn1 : Option String :=
    match pn0 with
    | some p => some p
    | none =>
      if u + 1 < parts.length then
        let pnA : Option String :=
          if parts.contains "Documents" && parts.contains "codebase" then
            let ci := firstIdxOf "codebase" parts
            if ci + 1 < parts.length then some (parts.getD (ci + 1) "") else none
          else none
        match pnA with
        | some p => some p
        | none => some (parts.getLastD "")
      else none
  let pn2 : Option String :=
    match pn1 with
    | some p => if p = username then some "Home Directory" else some p
    | none => none
  let pn3 : Option String :=
    match pn2 with
    | some p =>
      if projectContainers.contains p then
        let ci := firstIdxOf p parts
        if ci + 1 < parts.length then some (parts.getD (ci + 1) "") else some p
      else some p
    | none => none
  match pn3 with
  | some p =>
    if p = "" then
      match sysScan parts u with
      | some q => some q
      | none => some ""
    else some p
  | none => sysScan parts u

/-- The final fallthrough of extract_project_name_from_path (server.py
lines 325-331): replace the username by the Home Directory label, then
replace a falsy name by Unknown Project. -/
def finalizePN (username : String) (pn : Option String) : String :=
  match pn with
  | some p =>
    if p = username then "Home Directory"
    else if p = "" then "Unknown Project"
    else p
  | none => "Unknown Project"

/-- extract_project_name_from_path on the segment list, after the early
empty-path check (server.py lines 241-331). -/
def corePN (username : String) (parts : List String) : String :=
  match userIdx parts with
  | some u =>
    if u < parts.length ∧ parts.getD u "" = username ∧ parts.length ≤ u + 1 then
      "Home Directory"
    else if u + 1 < parts.length then
      finalizePN username (mainPN username parts u)
    else
      finalizePN username (some (parts.getLastD "Root"))
  | none => finalizePN username (some (parts.getLastD "Root"))

/-- Models extract_project_name_from_path (server.py lines 234-331); the
current OS username is an explicit parameter. -/
def extract_project_name_from_path (username rootPath : String) : String :=
  if rootPath = "" ∨ rootPath = "/" then "Root"
  else corePN username (toParts rootPath)

/-- Character-wise longest common prefix of two strings. -/
def commonPrefixChars : List Char → List Char → List Char
  | a :: as, b :: bs => if a = b then a :: commonPrefixChars as bs else []
  | _, _ => []

/-- os.path.commonprefix over a list of strings (server.py line 354). -/
def commonPrefixAll : List String → String
  | [] => ""
  | x :: xs => String.mk (xs.foldl (fun acc s => commonPrefixChars acc s.toList) x.toList)

/-- Python s.rfind of the slash character: index of the last slash, none
standing for -1 (server.py line 358). -/
def strRfindSlash (s : String) : Option Nat :=
  (s.toList.reverse.findIdx? (fun c => c = '/')).map (fun i => s.toList.length - 1 - i)

/-- Python p.strip of slashes on both ends (server.py line 377). -/
def stripSlashes (p : String) : String :=
  String.mk (((p.toList.dropWhile (fun c => c = '/')).reverse.dropWhile
    (fun c => c = '/')).reverse)

/-- A resolved project identity; both fields are always strings in the
source. -/
structure Proj where
  name : String
  rootPath : String

/-- The explicit unknown sentinel pair (server.py line 339). -/
def unknownProj : Proj := {name := "(unknown)", rootPath := "(unknown)"}

/-- Session metadata as stored in comp_meta entries (server.py lines
390-394): the title can be a non-string JValue because composer name
fields pass through. -/
structure Meta where
  title : JValue
  createdAt : JValue
  lastUpdatedAt : JValue

/-- file:/// paths collected from history entries (server.py lines
343-347): a falsy resource is skipped before startswith is called, so a
truthy non-string resource raises AttributeError. -/
def historyPaths (ents : List JValue) : Except PyErr (List String) :=
  ents.foldlM (fun acc e => do
    let ed ← e.pyGetD "editor" (.obj [])
    let res ← ed.pyGetD "resource" (.str "")
    if truthy res then do
      let sw ← pyStartsWith res "file:///"
      if sw then
        match res with
        | .str s => pure (acc ++ [strDrop s 8])
        | _ => pure acc
      else pure acc
    else pure acc) []

/-- Models workspace_info (server.py lines 333-414): resolves the
project identity from history entries (falling back to
debug.selectedroot) and collects composer/tab metadata; a
sqlite3.DatabaseError is caught and returns the unknown pair with empty
metadata, while any other exception propagates. -/
def workspace_info (username : String) (db : Db) : Except PyErr (Proj × PyDict Meta) :=
  if db.openErr then .ok (unknownProj, [])
  else
    match db.itemTable with
    | none => .ok (unknownProj, [])
    | some tbl => do
      let entsJ :=
        match jlookup tbl "history.entries" with
        | some v => pyOr v (.arr [])
        | none => .arr []
      let ents ← pyIter entsJ
      let paths ← historyPaths ents
      let proj1 :=
        if paths ≠ [] then
          let cp := commonPrefixAll paths
          match strRfindSlash cp with
          | some i =>
            if 0 < i then
              let root := String.mk (cp.toList.take i)
              { name := extract_project_name_from_path username root,
                rootPath := "/" ++ String.mk (root.toList.dropWhile (fun c => c = '/')) }
            else unknownProj
          | none => unknownProj
        else unknownProj
      let proj2 :=
        if proj1.name = "(unknown)" then
          match jlookup tbl "debug.selectedroot" with
          | some (.str s) =>
            if strStartsWith s "file:///" then
              let p := strDrop s 8
              if p ≠ "" then
                let rp := "/" ++ stripSlashes p
                let pn := extract_project_name_from_path username rp
                if pn ≠ "" then {name := pn, rootPath := rp} else proj1
              else proj1
            else proj1
          | _ => proj1
        else proj1
      let cdJ :=
        match jlookup tbl composerDataKey with
        | some v => pyOr v (.obj [])
        | none => .obj []
      let allJ ← cdJ.pyGetD "allComposers" (.arr [])
      let comps ← pyIter allJ
      let cm ← comps.foldlM (fun cm c => do
        let title ← c.pyGetD "name" (.str "(untitled)")
        let ca ← c.pyGet "createdAt"
        let lu ← c.pyGet "lastUpdatedAt"
        let cid ← c.pySub "composerId"
        dSet cm cid {title, createdAt := ca, lastUpdatedAt := lu}) []
      let chJ :=
        match jlookup tbl chatdataKey with
        | some v => pyOr v (.obj [])
        | none => .obj []
      let tabsJ ← chJ.pyGetD "tabs" (.arr [])
      let tabs ← pyIter tabsJ
      let cm2 ← tabs.foldlM (fun cm tab => do
        let tid ← tab.pyGet "tabId"
        if truthy tid then do
          let mem ← dContains cm tid
          if mem then pure cm
          else do
            let t ← pySliceTitle "Chat " tid
            dSet cm tid {title := .str t, createdAt := .null, lastUpdatedAt := .null}
        else pure cm) cm
      pure (proj2, cm2)

/-- Project name from one recorded repository string (server.py lines
695-714): the last path segment after the git file URI marker. -/
def gitRepoName (repo : JValue) : Option String :=
  match repo with
  | .str s =>
    if strContainsSub s "git:Git:file:///" then
      let path := (strSplitOn s "file:///").getLastD ""
      let parts := (strSplitOn path "/").filter (fun p => p ≠ "")
      parts.getLast?
    else none
  | _ => none

/-- Models extract_project_from_git_repos (server.py lines 649-724): the
whole body is wrapped in except Exception returning None, so the reader
is total; db? is none when the workspace database file does not exist. -/
def extract_project_from_git_repos (workspaceId : String) (db? : Option Db) : Option String :=
  if workspaceId = "" ∨ workspaceId = "unknown" ∨ workspaceId = "(unknown)" ∨
      workspaceId = "(global)" then none
  else
    match db? with
    | none => none
    | some db =>
      if db.openErr then none
      else
        match db.itemTable with
        | none => none
        | some tbl =>
          match jlookup tbl "scm:view:visibleRepositories" with
          | none => none
          | some gd =>
            if !truthy gd then none
            else
              match gd with
              | .obj fs =>
                match dictFind? fs "all" with
                | none => none
                | some repos =>
                  if !truthy repos then none
                  else
                    match repos with
                    | .arr rs => (rs.filterMap gitRepoName).head?
                    | _ => none
              | _ => none

/-- The git-repository fallback of format_chat_for_frontend (server.py
lines 796-800): a generic resolved name is replaced by the git-derived
name with no username check. -/
def gitFallbackName (name : String) (gitName : Option String) : String :=
  if name = "Home Directory" ∨ name = "(unknown)" then
    match gitName with
    | some g => if g = "" then name else g
    | none => name
  else name

/-- One merged chat message. -/
structure Msg where
  role : JValue
  content : JValue

/-- One accumulating session record of the sessions defaultdict. -/
structure Sess where
  messages : List Msg
  dbPath : Option String

/-- The mutable state of extract_chats (server.py lines 500-503). -/
structure St where
  wsProj : List (String × Proj)
  compMeta : PyDict Meta
  comp2ws : PyDict String
  sessions : PyDict Sess

/-- The fresh state at the start of a run. -/
def emptySt : St := {wsProj := [], compMeta := [], comp2ws := [], sessions := []}

/-- String-keyed dict assignment (ws_proj), overwriting in place. -/
def supdate (l : List (String × Proj)) (k : String) (v : Proj) : List (String × Proj) :=
  match l with
  | [] => [(k, v)]
  | e :: es => if e.1 = k then (e.1, v) :: es else e :: supdate es k v

/-- sessions[cid].messages.append under the defaultdict (server.py lines
521, 540): creates the entry when absent. -/
def sessAppendMsg (st : St) (cid : JValue) (m : Msg) : Except PyErr St := do
  let cur := (dFind? st.sessions cid).getD {messages := [], dbPath := none}
  let s2 ← dSet st.sessions cid {cur with messages := cur.messages ++ [m]}
  pure {st with sessions := s2}

/-- The guarded db_path write (server.py lines 523-524, 542-543,
563-564): reading sessions[cid] creates the entry (defaultdict), and the
path is stored only when not already set. -/
def sessSetDbIfUnset (st : St) (cid : JValue) (p : String) : Except PyErr St := do
  let cur := (dFind? st.sessions cid).getD {messages := [], dbPath := none}
  match cur.dbPath with
  | some _ => do
    let s2 ← dSet st.sessions cid cur
    pure {st with sessions := s2}
  | none => do
    let s2 ← dSet st.sessions cid {cur with dbPath := some p}
    pure {st with sessions := s2}

/-- Merging one yielded record into the state (server.py lines 519-528
for workspaces with tag the workspace id, lines 539-547 for global
bubbles with tag the global sentinel): append the message, record the
database path only if unset, and synthesize metadata only for an unseen
session id. -/
def mergeRec (tag : String) (st : St) (r : MsgRec) : Except PyErr St := do
  let st ← sessAppendMsg st r.cid {role := r.role, content := r.text}
  let st ← sessSetDbIfUnset st r.cid r.path
  let mem ← dContains st.compMeta r.cid
  if mem then pure st
  else do
    let t ← pySliceTitle "Chat " r.cid
    let cm ← dSet st.compMeta r.cid {title := .str t, createdAt := .null, lastUpdatedAt := .null}
    let cw ← dSet st.comp2ws r.cid tag
    pure {st with compMeta := cm, comp2ws := cw}

/-- Processing one workspace database (server.py lines 508-529): the
workspace_info metadata merge at lines 513-515 assigns comp_meta[cid]
unconditionally, overwriting any earlier workspace's entry. -/
def processWorkspace (username : String) (md5hex8 : String → String) (st : St)
    (w : String × Db) : Except PyErr St := do
  let (proj, meta) ← workspace_info username w.2
  let st := {st with wsProj := supdate st.wsProj w.1 proj}
  let st ← meta.foldlM (fun st e => do
    let cm ← dSet st.compMeta e.1 e.2
    let cw ← dSet st.comp2ws e.1 w.1
    pure {st with compMeta := cm, comp2ws := cw}) st
  let recs ← iter_chat_from_item_table md5hex8 w.2
  recs.foldlM (mergeRec w.1) st

/-- The metadata-synthesis step for one global composerData document
(server.py lines 553-560): only for an unseen id; reading createdAt
raises AttributeError when the parsed document is not a dict. -/
def composerDocMeta (st : St) (cid : String) (data : JValue) : Except PyErr St := do
  let mem ← dContains st.compMeta (.str cid)
  if mem then pure st
  else do
    let ca ← data.pyGet "createdAt"
    let cm ← dSet st.compMeta (.str cid)
      {title := .str ("Chat " ++ strTake cid 8), createdAt := ca, lastUpdatedAt := ca}
    let cw ← dSet st.comp2ws (.str cid) "(global)"
    pure {st with compMeta := cm, comp2ws := cw}

/-- One entry of a composer conversation list (server.py lines 570-580):
a None type is skipped by an identity test, type 1 is user and every
other type assistant, and only truthy string text is appended. -/
def composerConvStep (cid : String) (st : St) (msg : JValue) : Except PyErr St := do
  let ty ← msg.pyGet "type"
  match ty with
  | .null => pure st
  | _ => do
    let content ← msg.pyGetD "text" (.str "")
    match content with
    | .str s =>
      if s.isEmpty then pure st
      else
        sessAppendMsg st (.str cid)
          {role := .str (if pyEqInt ty 1 then "user" else "assistant"), content := .str s}
    | _ => pure st

/-- Processing one global composerData document (server.py lines
552-584): metadata is synthesized only for an unseen id, the db_path is
recorded even when no message follows, and the conversation entries are
appended. -/
def processComposerDoc (st : St) (doc : String × JValue × String) : Except PyErr St := do
  let st ← composerDocMeta st doc.1 doc.2.1
  let st ← sessSetDbIfUnset st (.str doc.1) doc.2.2
  let conv ← doc.2.1.pyGetD "conversation" (.arr [])
  if !truthy conv then pure st
  else do
    let msgs ← pyIter conv
    msgs.foldlM (composerConvStep doc.1) st

/-- Content extraction for one global-section bubble (server.py lines
606-610): the text field, else the content field, else the empty string. -/
def gBubbleContent (bubble : JValue) (hasText : Bool) : Except PyErr JValue :=
  if hasText then bubble.pySub "text"
  else
    match pyInJ "content" bubble with
    | .error e => .error e
    | .ok hc => if hc then bubble.pySub "content" else .ok (.str "")

/-- One bubble of the global ItemTable chat-data section (server.py
lines 605-615): no type check skips typeless bubbles here, and no
db_path is recorded. -/
def gBubbleCore (tid : JValue) (st : St) (bubble : JValue) : Except PyErr St := do
  let hasText ← pyInJ "text" bubble
  let content ← gBubbleContent bubble hasText
  match content with
  | .str s =>
    if s.isEmpty then pure st
    else do
      let ty ← bubble.pyGet "type"
      sessAppendMsg st tid
        {role := .str (if pyEqStr ty "user" then "user" else "assistant"), content := .str s}
  | _ => pure st

/-- The per-bubble step with the dead flag recording that an exception
was raised, which the enclosing except Exception swallows while keeping
earlier effects (the only mutation, the message append, is the last
operation, so an exception leaves the state unchanged). -/
def gBubbleStep (tid : JValue) (sb : St × Bool) (bubble : JValue) : St × Bool :=
  if sb.2 then sb
  else
    match gBubbleCore tid sb.1 bubble with
    | .ok st => (st, false)
    | .error _ => (sb.1, true)

/-- The tab-metadata step of the global ItemTable chat-data section
(server.py lines 596-603): synthesized only for a truthy unseen tab id. -/
def gTabMeta (st : St) (tid : JValue) : Except PyErr St :=
  if truthy tid then do
    let mem ← dContains st.compMeta tid
    if mem then pure st
    else do
      let t ← pySliceTitle "Global Chat " tid
      let cm ← dSet st.compMeta tid
        {title := .str t, createdAt := .null, lastUpdatedAt := .null}
      let cw ← dSet st.comp2ws tid "(global)"
      pure {st with compMeta := cm, comp2ws := cw}
  else pure st

/-- One tab of the global ItemTable chat-data section (server.py lines
595-615). -/
def gTabStep (sb : St × Bool) (tab : JValue) : St × Bool :=
  if sb.2 then sb
  else
    match tab.pyGet "tabId" with
    | .error _ => (sb.1, true)
    | .ok tid =>
      match gTabMeta sb.1 tid with
      | .error _ => (sb.1, true)
      | .ok st =>
        match tab.pyGetD "bubbles" (.arr []) with
        | .error _ => (st, true)
        | .ok bsJ =>
          match pyIter bsJ with
          | .error _ => (st, true)
          | .ok bs => bs.foldl (gBubbleStep tid) (st, false)

/-- The global ItemTable chat-data section (server.py lines 590-619):
wrapped in except Exception, so any raise keeps the effects applied so
far and processing continues after the section. -/
def globalItemTableSection (st : St) (g : Db) : St :=
  if g.openErr then st
  else
    match g.itemTable with
    | none => st
    | some tbl =>
      match jlookup tbl chatdataKey with
      | none => st
      | some cd =>
        if !truthy cd then st
        else
          match cd.pyGetD "tabs" (.arr []) with
          | .error _ => st
          | .ok tabsJ =>
            match pyIter tabsJ with
            | .error _ => st
            | .ok tabs => (tabs.foldl gTabStep (st, false)).1

/-- Processing the global database (server.py lines 534-619): bubbles,
then composerData documents, then the ItemTable chat data. -/
def processGlobal (st : St) (g : Db) : Except PyErr St := do
  let brecs ← iter_bubbles_from_disk_kv g
  let st ← brecs.foldlM (mergeRec "(global)") st
  let st ← (iter_composer_data g).foldlM processComposerDoc st
  pure (globalItemTableSection st g)

/-- One output chat (server.py lines 631-640): the session dict is the
composer id spread with its metadata; db_path is present only when some
source recorded it. -/
structure Chat where
  project : Proj
  composerId : JValue
  title : JValue
  createdAt : JValue
  lastUpdatedAt : JValue
  messages : List Msg
  workspaceId : String
  dbPath : Option String

/-- The metadata default used when a session has no comp_meta entry
(server.py line 628). -/
def defaultMeta : Meta :=
  {title := .str "(untitled)", createdAt := .null, lastUpdatedAt := .null}

/-- Building the final list (server.py lines 622-642): empty sessions
are dropped; workspace and metadata lookups fall back to the unknown
sentinels. -/
def buildOut (st : St) : List Chat :=
  st.sessions.filterMap (fun e =>
    if e.2.messages.isEmpty then none
    else
      let wsId := (dFind? st.comp2ws e.1).getD "(unknown)"
      let project := (((st.wsProj.find? (fun w => w.1 == wsId))).map (fun w => w.2)).getD unknownProj
      let meta := (dFind? st.compMeta e.1).getD defaultMeta
      some {project, composerId := e.1, title := meta.title, createdAt := meta.createdAt,
            lastUpdatedAt := meta.lastUpdatedAt, messages := e.2.messages,
            workspaceId := wsId, dbPath := e.2.dbPath})

/-- The sort key of server.py line 645: lastUpdatedAt when truthy, else
the int 0. -/
def chatKey (c : Chat) : JValue := pyOr c.lastUpdatedAt (.num 0)

/-- Integer view of a sort key (Python compares bools and ints together). -/
def intKey? : JValue → Option Int
  | .num n => some n
  | .bool b => some (if b then 1 else 0)
  | _ => none

/-- String view of a sort key. -/
def strKey? : JValue → Option String
  | .str s => some s
  | _ => none

/-- Stable insertion into a sorted list: x goes before the first element
it may precede. -/
def insertLe {α : Type} (le : α → α → Bool) (x : α) : List α → List α
  | [] => [x]
  | y :: ys => if le x y then x :: y :: ys else y :: insertLe le x ys

/-- Stable insertion sort; with a total transitive le this computes the
same list as CPython's stable sort. -/
def sortLe {α : Type} (le : α → α → Bool) : List α → List α
  | [] => []
  | x :: xs => insertLe le x (sortLe le xs)

/-- Descending comparison on integer sort keys. -/
def leIntDesc (a b : Chat) : Bool :=
  decide ((intKey? (chatKey b)).getD 0 ≤ (intKey? (chatKey a)).getD 0)

/-- Descending comparison on string sort keys. -/
def leStrDesc (a b : Chat) : Bool :=
  !decide ((strKey? (chatKey a)).getD "" < (strKey? (chatKey b)).getD "")

/-- Models out.sort(key=..., reverse=True) of server.py line 645: stable
descending by the lastUpdatedAt-or-0 key.  CPython raises TypeError when
its sort compares keys of mismatched types; this is modelled as raising
whenever a list of two or more chats has keys that are neither all
int-like nor all strings. -/
def pySortChats (out : List Chat) : Except PyErr (List Chat) :=
  if out.length ≤ 1 then .ok out
  else if out.all (fun c => (intKey? (chatKey c)).isSome) then .ok (sortLe leIntDesc out)
  else if out.all (fun c => (strKey? (chatKey c)).isSome) then .ok (sortLe leStrDesc out)
  else .error .typeError

/-- Host operating system kind as reported by platform.system. -/
inductive OSKind where
  | darwin
  | windows
  | linux
  | other (name : String)

/-- Models cursor_root (server.py lines 31-37): the storage root per OS,
with the home directory abstracted as a tilde; an unsupported OS raises
RuntimeError. -/
def cursor_root (os : OSKind) : Except PyErr String :=
  match os with
  | .darwin => .ok "~/Library/Application Support/Cursor"
  | .windows => .ok "~/AppData/Roaming/Cursor"
  | .linux => .ok "~/.config/Cursor"
  | .other _ => .error .runtimeError

/-- The environment of one run: the OS, the current account name, the
md5 hex digest function, the discovered (workspaceId, database) pairs,
and the optional global database.  Directory enumeration and the
CURSOR_CHAT_DIAGNOSTICS block (whose effects are confined to logging)
are abstracted away. -/
structure Env where
  os : OSKind
  username : String
  md5hex8 : String → String
  workspaces : List (String × Db)
  globalDb : Option Db

/-- Processing of the optional global database (server.py lines
534-535): absent means no global contribution. -/
def processGlobalOpt (st : St) (g? : Option Db) : Except PyErr St :=
  match g? with
  | none => pure st
  | some g => processGlobal st g

/-- Models extract_chats (server.py lines 438-647): locate the storage
root, process every workspace database, process the global database, and
return the sorted non-empty sessions. -/
def extract_chats (env : Env) : Except PyErr (List Chat) := do
  let _root ← cursor_root env.os
  let st ← env.workspaces.foldlM (processWorkspace env.username env.md5hex8) emptySt
  let st2 ← processGlobalOpt st env.globalDb
  pySortChats (buildOut st2)

/-- Metadata recorded for a session id in the accumulating state. -/
def metaOf (st : St) (cid : JValue) : Option Meta := dFind? st.compMeta cid

/-- Database path recorded for a session id in the accumulating state. -/
def dbPathOf (st : St) (cid : JValue) : Option String :=
  match dFind? st.sessions cid with
  | some s => s.dbPath
  | none => none

/-- A record's role is one of the two canonical roles. -/
def roleOk (r : MsgRec) : Prop := r.role = .str "user" ∨ r.role = .str "assistant"

/-- Workspace database of the concrete scenario: one composer document. -/
def wsDbC1s : Db :=
  { path := "/ws1/state.vscdb", openErr := false,
    itemTable := some [(composerDataKey, .json (.obj [("allComposers", .arr [
      .obj [("composerId", .str "c1"), ("name", .str "Demo"),
            ("messages", .arr [.obj [("role", .str "user"), ("content", .str "hi")]])]])]))],
    diskKV := none }

/-- Global database of the concrete scenario: one bubble row. -/
def gDbC1s : Db :=
  { path := "/glob/state.vscdb", openErr := false, itemTable := none,
    diskKV := some [("bubbleId:c1:b1",
      .json (.obj [("type", .num 1), ("text", .str "hello again")]))] }

/-- Environment of the concrete scenario. -/
def envC1s : Env :=
  { os := .darwin, username := "u", md5hex8 := fun _ => "00000000",
    workspaces := [("ws1", wsDbC1s)], globalDb := some gDbC1s }

/-- Expected output chat of the concrete scenario. -/
def chatC1s : Chat :=
  { project := unknownProj, composerId := .str "c1", title := .str "Demo",
    createdAt := .null, lastUpdatedAt := .null,
    messages := [{role := .str "user", content := .str "hi"},
                 {role := .str "user", content := .str "hello again"}],
    workspaceId := "ws1", dbPath := some "/ws1/state.vscdb" }

/-- First workspace of the title-overwrite scenario: a composer document
supplying the real title for session c1. -/
def dbA2 : Db :=
  { path := "/wA/state.vscdb", openErr := false,
    itemTable := some [(composerDataKey, .json (.obj [("allComposers", .arr [
      .obj [("composerId", .str "c1"), ("name", .str "Real Title"),
            ("messages", .arr [.obj [("role", .str "user"), ("content", .str "hi")]])]])]))],
    diskKV := none }

/-- Second workspace of the title-overwrite scenario: a chat tab with the
same id c1, for which workspace_info synthesizes a placeholder title. -/
def dbB2 : Db :=
  { path := "/wB/state.vscdb", openErr := false,
    itemTable := some [(chatdataKey, .json (.obj [("tabs", .arr [
      .obj [("tabId", .str "c1"), ("bubbles", .arr [])]])]))],
    diskKV := none }

/-- Environment with the two workspaces scanned in order. -/
def envC2x : Env :=
  { os := .darwin, username := "u", md5hex8 := fun _ => "00000000",
    workspaces := [("wA", dbA2), ("wB", dbB2)], globalDb := none }

/-- A state with metadata already recorded for one session id. -/
def stW2 : St :=
  { wsProj := [], compMeta := [(.str "a", defaultMeta)], comp2ws := [], sessions := [] }

/-- One record merged after the metadata above exists. -/
def recW2 : MsgRec := { cid := .str "a", role := .str "user", text := .str "x", path := "p" }

/-- The state after merging that record: the metadata is untouched. -/
def stW2b : St :=
  { wsProj := [], compMeta := [(.str "a", defaultMeta)], comp2ws := [],
    sessions := [(.str "a",
      {messages := [{role := .str "user", content := .str "x"}], dbPath := some "p"})] }

/-- Global database whose only chat content is an ItemTable tabbed-chat
document: this shape appends messages but records no db_path. -/
def gDbC3x : Db :=
  { path := "/glob/state.vscdb", openErr := false,
    itemTable := some [(chatdataKey, .json (.obj [("tabs", .arr [
      .obj [("tabId", .str "t1"), ("bubbles", .arr [
        .obj [("type", .str "user"), ("text", .str "hi")]])]])]))],
    diskKV := none }

/-- Environment with no workspaces and only the global database above. -/
def envC3x : Env :=
  { os := .darwin, username := "u", md5hex8 := fun _ => "00000000",
    workspaces := [], globalDb := some gDbC3x }

/-- A state with a recorded db_path for one session id. -/
def stW3 : St :=
  { wsProj := [], compMeta := [], comp2ws := [],
    sessions := [(.str "a", {messages := [], dbPath := some "p"})] }

/-- A database whose connection fails: every reader skips it. -/
def gEmptyDb : Db := { path := "", openErr := true, itemTable := none, diskKV := none }

/-- Workspace whose composer document stores a message with no role
field: the reader passes the default role unknown through. -/
def dbC4x : Db :=
  { path := "/w4/state.vscdb", openErr := false,
    itemTable := some [(composerDataKey, .json (.obj [("allComposers", .arr [
      .obj [("composerId", .str "c1"),
            ("messages", .arr [.obj [("content", .str "x")]])]])]))],
    diskKV := none }

/-- Environment exercising the role passthrough. -/
def envC4x : Env :=
  { os := .darwin, username := "u", md5hex8 := fun _ => "00000000",
    workspaces := [("w4", dbC4x)], globalDb := none }

/-- A database with one well-formed bubble row, for evaluating the
bubble reader on a concrete input. -/
def gDbW4 : Db :=
  { path := "/g4/state.vscdb", openErr := false, itemTable := none,
    diskKV := some [("bubbleId:c1:b1",
      .json (.obj [("type", .num 1), ("text", .str "hey")]))] }

/-- The single record the bubble reader yields from that database. -/
def recW4 : MsgRec :=
  { cid := .str "c1", role := .str "user", text := .str "hey", path := "/g4/state.vscdb" }

/-- Workspace database recording one git repository whose final path
segment is the account name alice. -/
def gitDbC5 : Db :=
  { path := "/w5/state.vscdb", openErr := false,
    itemTable := some [("scm:view:visibleRepositories", .json (.obj [("all", .arr [
      .str "git:Git:file:///Users/alice"])]))],
    diskKV := none }

/-- Global database with a bubble row whose value is valid JSON but not
an object: b.get then raises AttributeError outside every handler. -/
def gDbBadC6 : Db :=
  { path := "/glob/state.vscdb", openErr := false, itemTable := none,
    diskKV := some [("bubbleId:c1:b1", .json (.num 5))] }

/-- Environment on a supported OS whose extraction nevertheless raises. -/
def envBadC6 : Env :=
  { os := .darwin, username := "u", md5hex8 := fun _ => "00000000",
    workspaces := [], globalDb := some gDbBadC6 }

/-- Workspace with one composer carrying a negative lastUpdatedAt and
one with none recorded. -/
def dbC8x : Db :=
  { path := "/w8/state.vscdb", openErr := false,
    itemTable := some [(composerDataKey, .json (.obj [("allComposers", .arr [
      .obj [("composerId", .str "c1"), ("name", .str "A"), ("lastUpdatedAt", .num (-5)),
            ("messages", .arr [.obj [("role", .str "user"), ("content", .str "x")]])],
      .obj [("composerId", .str "c2"), ("name", .str "B"),
            ("messages", .arr [.obj [("role", .str "user"), ("content", .str "y")]])]])]))],
    diskKV := none }

/-- Environment of the sort counterexample. -/
def envC8x : Env :=
  { os := .darwin, username := "u", md5hex8 := fun _ => "00000000",
    workspaces := [("w8", dbC8x)], globalDb := none }

/-- Workspace with one composer carrying a positive lastUpdatedAt. -/
def dbW8 : Db :=
  { path := "/w9/state.vscdb", openErr := false,
    itemTable := some [(composerDataKey, .json (.obj [("allComposers", .arr [
      .obj [("composerId", .str "c1"), ("name", .str "A"), ("createdAt", .num 3),
            ("lastUpdatedAt", .num 7),
            ("messages", .arr [.obj [("role", .str "user"), ("content", .str "x")]])]])]))],
    diskKV := none }

/-- Environment of the sort witness. -/
def envW8 : Env :=
  { os := .darwin, username := "u", md5hex8 := fun _ => "00000000",
    workspaces := [("w9", dbW8)], globalDb := none }

/-- The single chat produced by the sort witness environment. -/
def chatW8 : Chat :=
  { project := unknownProj, composerId := .str "c1", title := .str "A",
    createdAt := .num 3, lastUpdatedAt := .num 7,
    messages := [{role := .str "user", content := .str "x"}],
    workspaceId := "w9", dbPath := some "/w9/state.vscdb" }

@[simp] theorem ebind_ok {α β : Type} (a : α) (f : α → Except PyErr β) :
    (Except.ok a >>= f) = f a := rfl

@[simp] theorem ebind_err {α β : Type} (e : PyErr) (f : α → Except PyErr β) :
    ((Except.error e : Except PyErr α) >>= f) = .error e := rfl

@[simp] theorem epure_ok {α : Type} (a : α) : (pure a : Except PyErr α) = .ok a := rfl

theorem except_bind_ok {α β : Type} {x : Except PyErr α} {f : α → Except PyErr β} {b : β}
    (h : (x >>= f) = .ok b) : ∃ a, x = .ok a ∧ f a = .ok b := by
  cases x with
  | error e => simp at h
  | ok a => exact ⟨a, rfl, by simpa using h⟩

theorem keyEq_symm {a b : JValue} (h : keyEq a b = true) : keyEq b a = true := by
  unfold keyEq at h ⊢
  cases ha : hashKey a <;> cases hb : hashKey b <;> simp [ha, hb] at h ⊢
  exact h.symm

theorem keyEq_trans {a b c : JValue} (h1 : keyEq a b = true) (h2 : keyEq b c = true) :
    keyEq a c = true := by
  unfold keyEq at h1 h2 ⊢
  cases ha : hashKey a <;> cases hb : hashKey b <;> cases hc : hashKey c <;>
    simp [ha, hb, hc] at h1 h2 ⊢
  exact h1.trans h2

theorem keyEq_right_congr {k q : JValue} (h : keyEq k q = true) (x : JValue) :
    keyEq x k = keyEq x q := by
  cases hxk : keyEq x k <;> cases hxq : keyEq x q
  · rfl
  · exact absurd (keyEq_trans hxq (keyEq_symm h)) (by simp [hxk])
  · exact absurd (keyEq_trans hxk h) (by simp [hxq])
  · rfl

theorem dFind?_congr {α : Type} {k q : JValue} (h : keyEq k q = true) (d : PyDict α) :
    dFind? d k = dFind? d q := by
  have hp : (fun (e : JValue × α) => keyEq e.1 k) = (fun e => keyEq e.1 q) := by
    funext e
    exact keyEq_right_congr h e.1
  unfold dFind?
  rw [hp]

theorem dFind?_dSetGo_ne {α : Type} {k q : JValue} (h : keyEq k q = false) (d : PyDict α)
    (v : α) : dFind? (dSetGo d k v) q = dFind? d q := by
  induction d with
  | nil => simp [dSetGo, dFind?, List.find?, h]
  | cons e es ih =>
    cases he : keyEq e.1 k with
    | true =>
      have hq : keyEq e.1 q = false := by
        cases hq : keyEq e.1 q
        · rfl
        · exact absurd (keyEq_trans (keyEq_symm he) hq) (by simp [h])
      simp [dSetGo, he, dFind?, List.find?, hq]
    | false =>
      unfold dFind? at ih ⊢
      simp only [dSetGo, he, List.find?]
      cases hq : keyEq e.1 q <;> simp [hq, ih]

theorem dFind?_dSetGo_eq {α : Type} {k q : JValue} (h : keyEq k q = true) (d : PyDict α)
    (v : α) : dFind? (dSetGo d k v) q = some v := by
  induction d with
  | nil => simp [dSetGo, dFind?, List.find?, h]
  | cons e es ih =>
    cases he : keyEq e.1 k with
    | true =>
      have hq : keyEq e.1 q = true := keyEq_trans he h
      simp [dSetGo, he, dFind?, List.find?, hq]
    | false =>
      have hq : keyEq e.1 q = false := by
        cases hq : keyEq e.1 q
        · rfl
        · exact absurd (keyEq_trans hq (keyEq_symm h)) (by simp [he])
      unfold dFind? at ih ⊢
      simp only [dSetGo, he, List.find?, hq]
      simpa using ih

theorem any_true_of_find?_isSome {α : Type} {r cid : JValue} (hrc : keyEq r cid = true)
    (d : List (JValue × α)) (h : (List.find? (fun e => keyEq e.1 cid) d).isSome = true) :
    d.any (fun e => keyEq e.1 r) = true := by
  induction d with
  | nil => simp [List.find?] at h
  | cons e es ih =>
    cases hec : keyEq e.1 cid
    · have h2 : (List.find? (fun x => keyEq x.1 cid) es).isSome = true := by
        simpa [List.find?, hec] using h
      simp [ih h2]
    · have he : keyEq e.1 r = true := keyEq_trans hec (keyEq_symm hrc)
      simp [he]

theorem keyEq_false_of_found_not_any {α : Type} {d : PyDict α} {cid r : JValue} {m : α}
    (hf : dFind? d cid = some m) (ha : d.any (fun e => keyEq e.1 r) = false) :
    keyEq r cid = false := by
  cases hrc : keyEq r cid
  · rfl
  · exfalso
    have hs : (List.find? (fun e => keyEq e.1 cid) d).isSome = true := by
      unfold dFind? at hf
      cases hx : List.find? (fun e => keyEq e.1 cid) d
      · rw [hx] at hf; simp at hf
      · simp
    have hany := any_true_of_find?_isSome hrc d hs
    rw [hany] at ha
    simp at ha

theorem dSet_ok {α : Type} {d d2 : PyDict α} {k : JValue} {v : α}
    (h : dSet d k v = .ok d2) : d2 = dSetGo d k v := by
  unfold dSet at h
  split at h
  · cases h; rfl
  · simp at h

theorem dContains_ok {α : Type} {d : PyDict α} {k : JValue} {b : Bool}
    (h : dContains d k = .ok b) : d.any (fun e => keyEq e.1 k) = b := by
  unfold dContains at h
  split at h
  · cases h; rfl
  · simp at h

theorem foldlM_except_preserve {σ β : Type} {P : σ → Prop} {f : σ → β → Except PyErr σ}
    (hf : ∀ s a s2, P s → f s a = .ok s2 → P s2) :
    ∀ (l : List β) (s s2 : σ), P s → l.foldlM f s = .ok s2 → P s2 := by
  intro l
  induction l with
  | nil =>
    intro s s2 hp h
    simp [List.foldlM] at h
    rwa [← h]
  | cons a t ih =>
    intro s s2 hp h
    simp only [List.foldlM] at h
    cases hfa : f s a with
    | error e => rw [hfa] at h; simp at h
    | ok s1 =>
      rw [hfa] at h
      simp only [ebind_ok] at h
      exact ih s1 s2 (hf s a s1 hp hfa) h

theorem foldl_preserve {σ β : Type} {P : σ → Prop} {f : σ → β → σ}
    (hf : ∀ s a, P s → P (f s a)) :
    ∀ (l : List β) (s : σ), P s → P (l.foldl f s) := by
  intro l
  induction l with
  | nil => intro s hp; simpa using hp
  | cons a t ih => intro s hp; simpa using ih (f s a) (hf s a hp)

theorem sessAppendMsg_ok {st st2 : St} {c : JValue} {m : Msg}
    (h : sessAppendMsg st c m = .ok st2) :
    st2.compMeta = st.compMeta ∧ st2.comp2ws = st.comp2ws ∧ st2.wsProj = st.wsProj ∧
      st2.sessions = dSetGo st.sessions c
        {messages := ((dFind? st.sessions c).getD {messages := [], dbPath := none}).messages
            ++ [m],
         dbPath := ((dFind? st.sessions c).getD {messages := [], dbPath := none}).dbPath} := by
  unfold sessAppendMsg at h
  obtain ⟨s2, hs2, h⟩ := except_bind_ok h
  have hd := dSet_ok hs2
  simp only [epure_ok] at h
  cases h
  subst hd
  exact ⟨rfl, rfl, rfl, rfl⟩

theorem dbPathOf_sessAppendMsg {st st2 : St} {c cid : JValue} {m : Msg}
    (h : sessAppendMsg st c m = .ok st2) : dbPathOf st2 cid = dbPathOf st cid := by
  obtain ⟨-, -, -, hs⟩ := sessAppendMsg_ok h
  unfold dbPathOf
  rw [hs]
  cases hkc : keyEq c cid
  · rw [dFind?_dSetGo_ne hkc]
  · rw [dFind?_dSetGo_eq hkc, dFind?_congr hkc st.sessions]
    cases dFind? st.sessions cid <;> simp

theorem sessSetDbIfUnset_fields {st st2 : St} {c : JValue} {q : String}
    (h : sessSetDbIfUnset st c q = .ok st2) :
    st2.compMeta = st.compMeta ∧ st2.comp2ws = st.comp2ws ∧ st2.wsProj = st.wsProj := by
  unfold sessSetDbIfUnset at h
  dsimp only at h
  cases hdb : ((dFind? st.sessions c).getD {messages := [], dbPath := none}).dbPath <;>
    rw [hdb] at h <;> dsimp only at h
  all_goals
    obtain ⟨s2, hs2, h⟩ := except_bind_ok h
    simp only [epure_ok] at h
    cases h
    exact ⟨rfl, rfl, rfl⟩

theorem dbPathOf_sessSetDbIfUnset {st st2 : St} {c cid : JValue} {q p : String}
    (hp : dbPathOf st cid = some p) (h : sessSetDbIfUnset st c q = .ok st2) :
    dbPathOf st2 cid = some p := by
  unfold sessSetDbIfUnset at h
  dsimp only at h
  cases hkc : keyEq c cid
  · cases hdb : ((dFind? st.sessions c).getD {messages := [], dbPath := none}).dbPath <;>
      rw [hdb] at h <;> dsimp only at h
    all_goals
      obtain ⟨s2, hs2, h⟩ := except_bind_ok h
      have hd := dSet_ok hs2
      simp only [epure_ok] at h
      cases h
      subst hd
      unfold dbPathOf at hp ⊢
      rw [dFind?_dSetGo_ne hkc]
      exact hp
  · have hcc : dFind? st.sessions c = dFind? st.sessions cid := dFind?_congr hkc st.sessions
    have hcur : ((dFind? st.sessions c).getD {messages := [], dbPath := none}).dbPath
        = some p := by
      rw [hcc]
      unfold dbPathOf at hp
      cases hx : dFind? st.sessions cid
      · rw [hx] at hp; simp at hp
      · rw [hx] at hp; simpa using hp
    rw [hcur] at h
    dsimp only at h
    obtain ⟨s2, hs2, h⟩ := except_bind_ok h
    have hd := dSet_ok hs2
    simp only [epure_ok] at h
    cases h
    subst hd
    unfold dbPathOf
    rw [dFind?_dSetGo_eq hkc]
    exact hcur


theorem metaOf_mergeRec {tag : String} {st st2 : St} {r : MsgRec} {cid : JValue} {m : Meta}
    (hm : metaOf st cid = some m) (h : mergeRec tag st r = .ok st2) :
    metaOf st2 cid = some m := by
  unfold mergeRec at h
  obtain ⟨sa, ha, h⟩ := except_bind_ok h
  obtain ⟨sb, hb, h⟩ := except_bind_ok h
  obtain ⟨mem, hmem, h⟩ := except_bind_ok h
  have hm2 : metaOf sb cid = some m := by
    unfold metaOf at hm ⊢
    rw [(sessSetDbIfUnset_fields hb).1, (sessAppendMsg_ok ha).1]
    exact hm
  cases mem with
  | true =>
    rw [if_pos rfl] at h
    simp only [epure_ok] at h
    cases h
    exact hm2
  | false =>
    rw [if_neg (by simp)] at h
    obtain ⟨t, ht, h⟩ := except_bind_ok h
    obtain ⟨cm, hcm, h⟩ := except_bind_ok h
    obtain ⟨cw, hcw, h⟩ := except_bind_ok h
    simp only [epure_ok] at h
    cases h
    have hany := dContains_ok hmem
    have hne : keyEq r.cid cid = false := keyEq_false_of_found_not_any hm2 hany
    unfold metaOf at hm2 ⊢
    have hd := dSet_ok hcm
    subst hd
    simpa [dFind?_dSetGo_ne hne] using hm2

theorem dbPathOf_mergeRec {tag : String} {st st2 : St} {r : MsgRec} {cid : JValue} {p : String}
    (hp : dbPathOf st cid = some p) (h : mergeRec tag st r = .ok st2) :
    dbPathOf st2 cid = some p := by
  unfold mergeRec at h
  obtain ⟨sa, ha, h⟩ := except_bind_ok h
  obtain ⟨sb, hb, h⟩ := except_bind_ok h
  obtain ⟨mem, hmem, h⟩ := except_bind_ok h
  have hpa : dbPathOf sa cid = some p := by rw [dbPathOf_sessAppendMsg ha]; exact hp
  have hpb : dbPathOf sb cid = some p := dbPathOf_sessSetDbIfUnset hpa hb
  cases mem with
  | true =>
    rw [if_pos rfl] at h
    simp only [epure_ok] at h
    cases h
    exact hpb
  | false =>
    rw [if_neg (by simp)] at h
    obtain ⟨t, ht, h⟩ := except_bind_ok h
    obtain ⟨cm, hcm, h⟩ := except_bind_ok h
    obtain ⟨cw, hcw, h⟩ := except_bind_ok h
    simp only [epure_ok] at h
    cases h
    unfold dbPathOf at hpb ⊢
    exact hpb

theorem metaOf_composerDocMeta {st st2 : St} {cidS : String} {data : JValue} {cid : JValue}
    {m : Meta} (hm : metaOf st cid = some m) (h : composerDocMeta st cidS data = .ok st2) :
    metaOf st2 cid = some m := by
  unfold composerDocMeta at h
  obtain ⟨mem, hmem, h⟩ := except_bind_ok h
  cases mem with
  | true =>
    rw [if_pos rfl] at h
    simp only [epure_ok] at h
    cases h
    exact hm
  | false =>
    rw [if_neg (by simp)] at h
    obtain ⟨ca, hca, h⟩ := except_bind_ok h
    obtain ⟨cm, hcm, h⟩ := except_bind_ok h
    obtain ⟨cw, hcw, h⟩ := except_bind_ok h
    simp only [epure_ok] at h
    cases h
    have hany := dContains_ok hmem
    have hne : keyEq (.str cidS) cid = false := keyEq_false_of_found_not_any hm hany
    unfold metaOf at hm ⊢
    have hd := dSet_ok hcm
    subst hd
    simpa [dFind?_dSetGo_ne hne] using hm

theorem composerDocMeta_sessions {st st2 : St} {cidS : String} {data : JValue}
    (h : composerDocMeta st cidS data = .ok st2) : st2.sessions = st.sessions := by
  unfold composerDocMeta at h
  obtain ⟨mem, hmem, h⟩ := except_bind_ok h
  cases mem with
  | true =>
    rw [if_pos rfl] at h
    simp only [epure_ok] at h
    cases h
    rfl
  | false =>
    rw [if_neg (by simp)] at h
    obtain ⟨ca, hca, h⟩ := except_bind_ok h
    obtain ⟨cm, hcm, h⟩ := except_bind_ok h
    obtain ⟨cw, hcw, h⟩ := except_bind_ok h
    simp only [epure_ok] at h
    cases h
    rfl

theorem metaOf_composerConvStep {cidS : String} {st st2 : St} {msg : JValue} {cid : JValue}
    {m : Meta} (hm : metaOf st cid = some m) (h : composerConvStep cidS st msg = .ok st2) :
    metaOf st2 cid = some m := by
  unfold composerConvStep at h
  obtain ⟨ty, hty, h⟩ := except_bind_ok h
  cases ty with
  | null =>
    simp only [epure_ok] at h
    cases h
    exact hm
  | _ =>
    dsimp only at h
    obtain ⟨content, hcontent, h⟩ := except_bind_ok h
    cases content with
    | str s =>
      dsimp only at h
      cases hse : s.isEmpty with
      | true =>
        rw [if_pos hse] at h
        simp only [epure_ok] at h
        cases h
        exact hm
      | false =>
        rw [if_neg (by simp [hse])] at h
        unfold metaOf at hm ⊢
        rw [(sessAppendMsg_ok h).1]
        exact hm
    | _ =>
      dsimp only at h
      simp only [epure_ok] at h
      cases h
      exact hm

theorem dbPathOf_composerConvStep {cidS : String} {st st2 : St} {msg : JValue} {cid : JValue}
    {p : String} (hp : dbPathOf st cid = some p) (h : composerConvStep cidS st msg = .ok st2) :
    dbPathOf st2 cid = some p := by
  unfold composerConvStep at h
  obtain ⟨ty, hty, h⟩ := except_bind_ok h
  cases ty with
  | null =>
    simp only [epure_ok] at h
    cases h
    exact hp
  | _ =>
    dsimp only at h
    obtain ⟨content, hcontent, h⟩ := except_bind_ok h
    cases content with
    | str s =>
      dsimp only at h
      cases hse : s.isEmpty with
      | true =>
        rw [if_pos hse] at h
        simp only [epure_ok] at h
        cases h
        exact hp
      | false =>
        rw [if_neg (by simp [hse])] at h
        rw [dbPathOf_sessAppendMsg h]
        exact hp
    | _ =>
      dsimp only at h
      simp only [epure_ok] at h
      cases h
      exact hp

theorem metaOf_processComposerDoc {st st2 : St} {doc : String × JValue × String}
    {cid : JValue} {m : Meta}
    (hm : metaOf st cid = some m) (h : processComposerDoc st doc = .ok st2) :
    metaOf st2 cid = some m := by
  unfold processComposerDoc at h
  obtain ⟨sa, ha, h⟩ := except_bind_ok h
  obtain ⟨sb, hb, h⟩ := except_bind_ok h
  obtain ⟨conv, hconv, h⟩ := except_bind_ok h
  have hma : metaOf sa cid = some m := metaOf_composerDocMeta hm ha
  have hmb : metaOf sb cid = some m := by
    unfold metaOf at hma ⊢
    rw [(sessSetDbIfUnset_fields hb).1]
    exact hma
  cases htr : !truthy conv with
  | true =>
    rw [if_pos htr] at h
    simp only [epure_ok] at h
    cases h
    exact hmb
  | false =>
    rw [if_neg (by simp [htr])] at h
    obtain ⟨msgs, hmsgs, h⟩ := except_bind_ok h
    exact foldlM_except_preserve
      (fun s a s2 hps hstep => metaOf_composerConvStep hps hstep) msgs sb st2 hmb h

theorem dbPathOf_processComposerDoc {st st2 : St} {doc : String × JValue × String}
    {cid : JValue} {p : String}
    (hp : dbPathOf st cid = some p) (h : processComposerDoc st doc = .ok st2) :
    dbPathOf st2 cid = some p := by
  unfold processComposerDoc at h
  obtain ⟨sa, ha, h⟩ := except_bind_ok h
  obtain ⟨sb, hb, h⟩ := except_bind_ok h
  obtain ⟨conv, hconv, h⟩ := except_bind_ok h
  have hpa : dbPathOf sa cid = some p := by
    unfold dbPathOf at hp ⊢
    rw [composerDocMeta_sessions ha]
    exact hp
  have hpb : dbPathOf sb cid = some p := dbPathOf_sessSetDbIfUnset hpa hb
  cases htr : !truthy conv with
  | true =>
    rw [if_pos htr] at h
    simp only [epure_ok] at h
    cases h
    exact hpb
  | false =>
    rw [if_neg (by simp [htr])] at h
    obtain ⟨msgs, hmsgs, h⟩ := except_bind_ok h
    exact foldlM_except_preserve
      (fun s a s2 hps hstep => dbPathOf_composerConvStep hps hstep) msgs sb st2 hpb h

theorem gBubbleCore_compMeta {tid : JValue} {st st2 : St} {bubble : JValue}
    (h : gBubbleCore tid st bubble = .ok st2) : st2.compMeta = st.compMeta := by
  unfold gBubbleCore at h
  obtain ⟨hasText, h1, h⟩ := except_bind_ok h
  obtain ⟨content, h2, h⟩ := except_bind_ok h
  cases content
  case str s =>
    dsimp only at h
    cases hse : s.isEmpty with
    | true =>
      rw [if_pos hse] at h
      simp only [epure_ok] at h
      cases h
      rfl
    | false =>
      rw [if_neg (by simp [hse])] at h
      obtain ⟨ty, h3, h⟩ := except_bind_ok h
      exact (sessAppendMsg_ok h).1
  all_goals
    dsimp only at h
    simp only [epure_ok] at h
    cases h
    rfl

theorem gBubbleCore_dbPathOf {tid : JValue} {st st2 : St} {bubble cid : JValue}
    (h : gBubbleCore tid st bubble = .ok st2) : dbPathOf st2 cid = dbPathOf st cid := by
  unfold gBubbleCore at h
  obtain ⟨hasText, h1, h⟩ := except_bind_ok h
  obtain ⟨content, h2, h⟩ := except_bind_ok h
  cases content
  case str s =>
    dsimp only at h
    cases hse : s.isEmpty with
    | true =>
      rw [if_pos hse] at h
      simp only [epure_ok] at h
      cases h
      rfl
    | false =>
      rw [if_neg (by simp [hse])] at h
      obtain ⟨ty, h3, h⟩ := except_bind_ok h
      exact dbPathOf_sessAppendMsg h
  all_goals
    dsimp only at h
    simp only [epure_ok] at h
    cases h
    rfl

theorem gBubbleStep_compMeta (tid : JValue) (sb : St × Bool) (b : JValue) :
    (gBubbleStep tid sb b).1.compMeta = sb.1.compMeta := by
  unfold gBubbleStep
  split
  · rfl
  split
  all_goals try rfl
  rename_i st heq
  exact gBubbleCore_compMeta heq

theorem gBubbleStep_dbPathOf (tid : JValue) (sb : St × Bool) (b cid : JValue) :
    dbPathOf (gBubbleStep tid sb b).1 cid = dbPathOf sb.1 cid := by
  unfold gBubbleStep
  split
  · rfl
  split
  all_goals try rfl
  rename_i st heq
  exact gBubbleCore_dbPathOf heq

theorem metaOf_gTabMeta {st st2 : St} {tid cid : JValue} {m : Meta}
    (hm : metaOf st cid = some m) (h : gTabMeta st tid = .ok st2) :
    metaOf st2 cid = some m := by
  unfold gTabMeta at h
  split at h
  · obtain ⟨mem, hmem, h⟩ := except_bind_ok h
    cases mem with
    | true =>
      rw [if_pos rfl] at h
      simp only [epure_ok] at h
      cases h
      exact hm
    | false =>
      rw [if_neg (by simp)] at h
      obtain ⟨t, ht, h⟩ := except_bind_ok h
      obtain ⟨cm, hcm, h⟩ := except_bind_ok h
      obtain ⟨cw, hcw, h⟩ := except_bind_ok h
      simp only [epure_ok] at h
      cases h
      have hne := keyEq_false_of_found_not_any hm (dContains_ok hmem)
      unfold metaOf at hm ⊢
      have hd := dSet_ok hcm
      subst hd
      simpa [dFind?_dSetGo_ne hne] using hm
  · simp only [epure_ok] at h
    cases h
    exact hm

theorem gTabMeta_sessions {st st2 : St} {tid : JValue}
    (h : gTabMeta st tid = .ok st2) : st2.sessions = st.sessions := by
  unfold gTabMeta at h
  split at h
  · obtain ⟨mem, hmem, h⟩ := except_bind_ok h
    cases mem with
    | true =>
      rw [if_pos rfl] at h
      simp only [epure_ok] at h
      cases h
      rfl
    | false =>
      rw [if_neg (by simp)] at h
      obtain ⟨t, ht, h⟩ := except_bind_ok h
      obtain ⟨cm, hcm, h⟩ := except_bind_ok h
      obtain ⟨cw, hcw, h⟩ := except_bind_ok h
      simp only [epure_ok] at h
      cases h
      rfl
  · simp only [epure_ok] at h
    cases h
    rfl

theorem metaOf_gTabStep {sb : St × Bool} {tab cid : JValue} {m : Meta}
    (hm : metaOf sb.1 cid = some m) : metaOf (gTabStep sb tab).1 cid = some m := by
  unfold gTabStep
  split
  · exact hm
  split
  all_goals try exact hm
  rename_i tid htid
  split
  all_goals try exact hm
  rename_i st hmetaeq
  have hst : metaOf st cid = some m := metaOf_gTabMeta hm hmetaeq
  split
  all_goals try exact hst
  rename_i bsJ hbsJ
  split
  all_goals try exact hst
  rename_i bs hbs
  refine @foldl_preserve (St × Bool) JValue (fun x => metaOf x.1 cid = some m) (gBubbleStep tid) ?_ bs (st, false) hst
  intro s a hps
  unfold metaOf at hps ⊢
  rw [gBubbleStep_compMeta]
  exact hps

theorem gTabStep_dbPathOf (sb : St × Bool) (tab cid : JValue) :
    dbPathOf (gTabStep sb tab).1 cid = dbPathOf sb.1 cid := by
  unfold gTabStep
  split
  · rfl
  split
  all_goals try rfl
  rename_i tid htid
  split
  all_goals try rfl
  rename_i st hmetaeq
  have hst : dbPathOf st cid = dbPathOf sb.1 cid := by
    unfold dbPathOf
    rw [gTabMeta_sessions hmetaeq]
  split
  all_goals try exact hst
  rename_i bsJ hbsJ
  split
  all_goals try exact hst
  rename_i bs hbs
  have hfold : ∀ (l : List JValue) (x : St × Bool),
      dbPathOf (l.foldl (gBubbleStep tid) x).1 cid = dbPathOf x.1 cid := by
    intro l
    induction l with
    | nil => intro x; rfl
    | cons a t ih =>
      intro x
      rw [List.foldl_cons, ih, gBubbleStep_dbPathOf]
  rw [hfold bs (st, false)]
  exact hst

theorem metaOf_globalItemTableSection {st : St} {g : Db} {cid : JValue} {m : Meta}
    (hm : metaOf st cid = some m) : metaOf (globalItemTableSection st g) cid = some m := by
  unfold globalItemTableSection
  repeat' split
  all_goals try exact hm
  refine @foldl_preserve (St × Bool) JValue (fun x => metaOf x.1 cid = some m) gTabStep ?_ _ (st, false) hm
  intro s a hps
  exact metaOf_gTabStep hps

theorem globalItemTableSection_dbPathOf (st : St) (g : Db) (cid : JValue) :
    dbPathOf (globalItemTableSection st g) cid = dbPathOf st cid := by
  unfold globalItemTableSection
  repeat' split
  all_goals try rfl
  rename_i tabs htabs
  have hfold : ∀ (l : List JValue) (x : St × Bool),
      dbPathOf (l.foldl gTabStep x).1 cid = dbPathOf x.1 cid := by
    intro l
    induction l with
    | nil => intro x; rfl
    | cons a t ih =>
      intro x
      rw [List.foldl_cons, ih, gTabStep_dbPathOf]
  rw [hfold tabs (st, false)]

theorem metaOf_processGlobal {st st2 : St} {g : Db} {cid : JValue} {m : Meta}
    (hm : metaOf st cid = some m) (h : processGlobal st g = .ok st2) :
    metaOf st2 cid = some m := by
  unfold processGlobal at h
  obtain ⟨brecs, hbrecs, h⟩ := except_bind_ok h
  obtain ⟨sa, ha, h⟩ := except_bind_ok h
  obtain ⟨sb, hb, h⟩ := except_bind_ok h
  simp only [epure_ok] at h
  cases h
  have hma : metaOf sa cid = some m :=
    foldlM_except_preserve (fun s a s2 hps hstep => metaOf_mergeRec hps hstep)
      brecs st sa hm ha
  have hmb : metaOf sb cid = some m :=
    foldlM_except_preserve (fun s a s2 hps hstep => metaOf_processComposerDoc hps hstep)
      (iter_composer_data g) sa sb hma hb
  exact metaOf_globalItemTableSection hmb

theorem dbPathOf_processGlobal {st st2 : St} {g : Db} {cid : JValue} {p : String}
    (hp : dbPathOf st cid = some p) (h : processGlobal st g = .ok st2) :
    dbPathOf st2 cid = some p := by
  unfold processGlobal at h
  obtain ⟨brecs, hbrecs, h⟩ := except_bind_ok h
  obtain ⟨sa, ha, h⟩ := except_bind_ok h
  obtain ⟨sb, hb, h⟩ := except_bind_ok h
  simp only [epure_ok] at h
  cases h
  have hpa : dbPathOf sa cid = some p :=
    foldlM_except_preserve (fun s a s2 hps hstep => dbPathOf_mergeRec hps hstep)
      brecs st sa hp ha
  have hpb : dbPathOf sb cid = some p :=
    foldlM_except_preserve (fun s a s2 hps hstep => dbPathOf_processComposerDoc hps hstep)
      (iter_composer_data g) sa sb hpa hb
  rw [globalItemTableSection_dbPathOf]
  exact hpb

theorem dbPathOf_processWorkspace {username : String} {md5 : String → String} {st st2 : St}
    {w : String × Db} {cid : JValue} {p : String}
    (hp : dbPathOf st cid = some p) (h : processWorkspace username md5 st w = .ok st2) :
    dbPathOf st2 cid = some p := by
  unfold processWorkspace at h
  obtain ⟨pm, hpm, h⟩ := except_bind_ok h
  obtain ⟨proj, meta⟩ := pm
  dsimp only at h
  obtain ⟨sa, ha, h⟩ := except_bind_ok h
  obtain ⟨recs, hrecs, h⟩ := except_bind_ok h
  have hp1 : dbPathOf {st with wsProj := supdate st.wsProj w.1 proj} cid = some p := by
    unfold dbPathOf at hp ⊢
    exact hp
  have hpa : dbPathOf sa cid = some p := by
    refine @foldlM_except_preserve St (JValue × Meta) (fun s => dbPathOf s cid = some p) _ ?_ meta _ sa hp1 ha
    intro s a s2 hps hstep
    obtain ⟨cm, hcm, hstep⟩ := except_bind_ok hstep
    obtain ⟨cw, hcw, hstep⟩ := except_bind_ok hstep
    simp only [epure_ok] at hstep
    cases hstep
    unfold dbPathOf at hps ⊢
    exact hps
  exact foldlM_except_preserve (fun s a s2 hps hstep => dbPathOf_mergeRec hps hstep)
    recs sa st2 hpa h

theorem mem_insertLe {α : Type} {le : α → α → Bool} {x a : α} {l : List α} :
    a ∈ insertLe le x l ↔ a = x ∨ a ∈ l := by
  induction l with
  | nil => simp [insertLe]
  | cons y ys ih =>
    unfold insertLe
    cases hxy : le x y <;> (simp [hxy, ih]; try tauto)

theorem pairwise_insertLe {α : Type} {le : α → α → Bool}
    (total : ∀ a b, le a b = true ∨ le b a = true)
    (htrans : ∀ a b c, le a b = true → le b c = true → le a c = true)
    {x : α} {l : List α} (h : l.Pairwise (fun a b => le a b = true)) :
    (insertLe le x l).Pairwise (fun a b => le a b = true) := by
  induction l with
  | nil => simp [insertLe]
  | cons y ys ih =>
    rw [List.pairwise_cons] at h
    obtain ⟨hy, hys⟩ := h
    unfold insertLe
    cases hxy : le x y
    · rw [if_neg (by simp)]
      rw [List.pairwise_cons]
      refine ⟨?_, ih hys⟩
      intro b hb
      rcases mem_insertLe.mp hb with hbx | hb2
      · rw [hbx]
        rcases total x y with h1 | h1
        · simp [h1] at hxy
        · exact h1
      · exact hy b hb2
    · rw [if_pos rfl]
      rw [List.pairwise_cons]
      refine ⟨?_, List.pairwise_cons.mpr ⟨hy, hys⟩⟩
      intro b hb
      rcases List.mem_cons.mp hb with rfl | hb2
      · exact hxy
      · exact htrans x y b hxy (hy b hb2)

theorem pairwise_sortLe {α : Type} {le : α → α → Bool}
    (total : ∀ a b, le a b = true ∨ le b a = true)
    (htrans : ∀ a b c, le a b = true → le b c = true → le a c = true)
    (l : List α) : (sortLe le l).Pairwise (fun a b => le a b = true) := by
  induction l with
  | nil => simp [sortLe]
  | cons x xs ih =>
    unfold sortLe
    exact pairwise_insertLe total htrans ih

theorem mem_sortLe {α : Type} {le : α → α → Bool} {a : α} {l : List α} :
    a ∈ sortLe le l ↔ a ∈ l := by
  induction l with
  | nil => simp [sortLe]
  | cons x xs ih =>
    unfold sortLe
    rw [mem_insertLe, ih, List.mem_cons]

theorem pairwise_of_length_le_one {α : Type} {R : α → α → Prop} {l : List α}
    (h : l.length ≤ 1) : l.Pairwise R := by
  cases l with
  | nil => exact List.Pairwise.nil
  | cons x t =>
    cases t with
    | nil => simp
    | cons y t2 => simp at h

theorem pySortChats_pairwise {out res : List Chat}
    (h : pySortChats out = .ok res)
    (hkeys : ∀ c ∈ res, (intKey? (chatKey c)).isSome = true) :
    res.Pairwise (fun a b => (intKey? (chatKey b)).getD 0 ≤ (intKey? (chatKey a)).getD 0) := by
  unfold pySortChats at h
  split at h
  · rename_i hlen
    cases h
    exact pairwise_of_length_le_one hlen
  split at h
  · rename_i hlen hint
    cases h
    have hp := @pairwise_sortLe Chat leIntDesc ?_ ?_ out
    · exact hp.imp (fun hab => by simpa [leIntDesc, decide_eq_true_eq] using hab)
    · intro a b
      unfold leIntDesc
      rcases le_total ((intKey? (chatKey b)).getD 0) ((intKey? (chatKey a)).getD 0) with h1 | h1
      · left; simpa using h1
      · right; simpa using h1
    · intro a b c h1 h2
      unfold leIntDesc at h1 h2 ⊢
      simp only [decide_eq_true_eq] at h1 h2 ⊢
      omega
  split at h
  · rename_i hlen hint hstr
    cases h
    cases hq : sortLe leStrDesc out with
    | nil => exact List.Pairwise.nil
    | cons c cs =>
      exfalso
      have hc2 : c ∈ sortLe leStrDesc out := by rw [hq]; exact List.mem_cons_self c cs
      have hcout : c ∈ out := mem_sortLe.mp hc2
      have hcint : (intKey? (chatKey c)).isSome = true := hkeys c hc2
      have hcstr : (strKey? (chatKey c)).isSome = true := List.all_eq_true.mp hstr c hcout
      cases hck : chatKey c <;> rw [hck] at hcint hcstr <;>
        simp [intKey?, strKey?] at hcint hcstr
  · simp at h

theorem pyEqStr_user_falsy {v : JValue} (h : truthy v = false) : pyEqStr v "user" = false := by
  cases v with
  | str s =>
    have hs : s = "" := (String.isEmpty_iff s).mp (by simpa [truthy] using h)
    subst hs
    rfl
  | null => rfl
  | bool b => rfl
  | num n => rfl
  | arr xs => rfl
  | obj fs => rfl

theorem mapM_flatten_pred {β : Type} {Q : MsgRec → Prop} {f : β → Except PyErr (List MsgRec)}
    (hf : ∀ b l, f b = .ok l → ∀ r ∈ l, Q r) :
    ∀ (bs : List β) (ls : List (List MsgRec)), bs.mapM f = .ok ls → ∀ r ∈ ls.flatten, Q r := by
  intro bs
  induction bs with
  | nil =>
    intro ls h r hr
    rw [List.mapM_nil] at h
    simp only [epure_ok] at h
    cases h
    simp at hr
  | cons b t ih =>
    intro ls h r hr
    rw [List.mapM_cons] at h
    obtain ⟨x, hx, h⟩ := except_bind_ok h
    obtain ⟨xs, hxs, h⟩ := except_bind_ok h
    simp only [epure_ok] at h
    cases h
    rw [List.flatten_cons] at hr
    rcases List.mem_append.mp hr with h1 | h2
    · exact hf b x hx r h1
    · exact ih xs hxs r h2

theorem bubbleRow_roles {path : String} {kv : String × Raw} {l : List MsgRec}
    (h : bubbleRow path kv = .ok l) : ∀ r ∈ l, roleOk r := by
  unfold bubbleRow at h
  rcases kv with ⟨k, raw⟩
  cases raw
  case sqlNull =>
    cases h
    intro r hr
    simp at hr
  case malformed =>
    cases h
    intro r hr
    simp at hr
  case json b =>
    obtain ⟨t1, h1, h⟩ := except_bind_ok h
    obtain ⟨t2, h2, h⟩ := except_bind_ok h
    obtain ⟨txt, h3, h⟩ := except_bind_ok h
    cases hse : txt.isEmpty
    · rw [if_neg (by simp [hse])] at h
      obtain ⟨ty, h4, h⟩ := except_bind_ok h
      dsimp only at h
      simp only [epure_ok] at h
      cases h
      intro r hr
      rcases List.mem_singleton.mp hr with rfl
      unfold roleOk
      cases hpe : pyEqInt ty 1 <;> simp [hpe]
    · rw [if_pos hse] at h
      simp only [epure_ok] at h
      cases h
      intro r hr
      simp at hr

theorem iter_bubbles_roles {db : Db} {recs : List MsgRec}
    (h : iter_bubbles_from_disk_kv db = .ok recs) : ∀ r ∈ recs, roleOk r := by
  unfold iter_bubbles_from_disk_kv at h
  split at h
  · cases h
    intro r hr
    simp at hr
  split at h
  · cases h
    intro r hr
    simp at hr
  obtain ⟨ls, hls, h⟩ := except_bind_ok h
  simp only [epure_ok] at h
  cases h
  exact mapM_flatten_pred (fun b l hb => bubbleRow_roles hb) _ ls hls

theorem tabBubble_roles {tabId : JValue} {path : String} {bubble : JValue} {l : List MsgRec}
    (h : tabBubble tabId path bubble = .ok l) : ∀ r ∈ l, roleOk r := by
  unfold tabBubble at h
  obtain ⟨bty, h1, h⟩ := except_bind_ok h
  cases hb : !truthy bty
  · rw [hb] at h
    rw [if_neg (by simp)] at h
    obtain ⟨hasText, h2, h⟩ := except_bind_ok h
    obtain ⟨text, h3, h⟩ := except_bind_ok h
    cases text
    case str s =>
      dsimp only at h
      cases hse : s.isEmpty
      · rw [if_neg (by simp [hse])] at h
        simp only [epure_ok] at h
        cases h
        intro r hr
        rcases List.mem_singleton.mp hr with rfl
        unfold roleOk
        cases hpe : pyEqStr bty "user" <;> simp [hpe]
      · rw [if_pos hse] at h
        simp only [epure_ok] at h
        cases h
        intro r hr
        simp at hr
    all_goals
      dsimp only at h
      simp only [epure_ok] at h
      cases h
      intro r hr
      simp at hr
  · rw [hb] at h
    rw [if_pos rfl] at h
    simp only [epure_ok] at h
    cases h
    intro r hr
    simp at hr

theorem tabsPart_roles {tbl : List (String × Raw)} {path : String} {recs : List MsgRec}
    (h : tabsPart tbl path = .ok recs) : ∀ r ∈ recs, roleOk r := by
  unfold tabsPart at h
  split at h
  · cases h
    intro r hr
    simp at hr
  split at h
  · cases h
    intro r hr
    simp at hr
  obtain ⟨has, h1, h⟩ := except_bind_ok h
  cases hhas : !has
  · rw [hhas] at h
    rw [if_neg (by simp)] at h
    obtain ⟨tabsJ, h2, h⟩ := except_bind_ok h
    obtain ⟨tabs, h3, h⟩ := except_bind_ok h
    obtain ⟨ls, hls, h⟩ := except_bind_ok h
    simp only [epure_ok] at h
    cases h
    refine mapM_flatten_pred ?_ tabs ls hls
    intro tab l htab
    obtain ⟨tid, h4, htab⟩ := except_bind_ok htab
    obtain ⟨bsJ, h5, htab⟩ := except_bind_ok htab
    obtain ⟨bs, h6, htab⟩ := except_bind_ok htab
    obtain ⟨ms, hms, htab⟩ := except_bind_ok htab
    simp only [epure_ok] at htab
    cases htab
    exact mapM_flatten_pred (fun b lb hb => tabBubble_roles hb) bs ms hms
  · rw [hhas] at h
    rw [if_pos rfl] at h
    simp only [epure_ok] at h
    cases h
    intro r hr
    simp at hr

theorem promptItem_roles {aiId path : String} {item : JValue} {l : List MsgRec}
    (h : promptItem aiId path item = .ok l) : ∀ r ∈ l, r.role = .str "user" := by
  unfold promptItem at h
  obtain ⟨has, h1, h⟩ := except_bind_ok h
  cases hhas : !has <;> rw [hhas] at h
  · rw [if_neg (by simp)] at h
    obtain ⟨t, h2, h⟩ := except_bind_ok h
    cases ht : !truthy t <;> rw [ht] at h
    · rw [if_neg (by simp)] at h
      obtain ⟨t2, h3, h⟩ := except_bind_ok h
      obtain ⟨text, h4, h⟩ := except_bind_ok h
      cases hse : text.isEmpty
      · rw [if_neg (by simp [hse])] at h
        simp only [epure_ok] at h
        cases h
        intro r hr
        rcases List.mem_singleton.mp hr with rfl
        rfl
      · rw [if_pos hse] at h
        simp only [epure_ok] at h
        cases h
        intro r hr
        simp at hr
    · rw [if_pos rfl] at h
      simp only [epure_ok] at h
      cases h
      intro r hr
      simp at hr
  · rw [if_pos rfl] at h
    simp only [epure_ok] at h
    cases h
    intro r hr
    simp at hr

theorem promptsRow_roles {aiId path : String} {kv : String × Raw} {l : List MsgRec}
    (h : promptsRow aiId path kv = .ok l) : ∀ r ∈ l, r.role = .str "user" := by
  unfold promptsRow at h
  rcases kv with ⟨k, raw⟩
  cases raw
  case sqlNull => simp at h
  case malformed =>
    cases h
    intro r hr
    simp at hr
  case json data =>
    cases data
    case arr items =>
      obtain ⟨ls, hls, h⟩ := except_bind_ok h
      simp only [epure_ok] at h
      cases h
      exact mapM_flatten_pred (fun b lb hb => promptItem_roles hb) items ls hls
    all_goals
      cases h
      intro r hr
      simp at hr

theorem promptsPart_roles {aiId path : String} {tbl : List (String × Raw)} {recs : List MsgRec}
    (h : promptsPart aiId tbl path = .ok recs) : ∀ r ∈ recs, r.role = .str "user" := by
  unfold promptsPart at h
  obtain ⟨ls, hls, h⟩ := except_bind_ok h
  simp only [epure_ok] at h
  cases h
  exact mapM_flatten_pred (fun b lb hb => promptsRow_roles hb) _ ls hls

theorem generationItem_roles {aiId path : String} {item : JValue} {l : List MsgRec}
    (h : generationItem aiId path item = .ok l) : ∀ r ∈ l, r.role = .str "user" := by
  unfold generationItem at h
  obtain ⟨has, h1, h⟩ := except_bind_ok h
  cases hhas : !has <;> rw [hhas] at h
  · rw [if_neg (by simp)] at h
    obtain ⟨t, h2, h⟩ := except_bind_ok h
    cases ht : !truthy t <;> rw [ht] at h
    · rw [if_neg (by simp)] at h
      obtain ⟨t2, h3, h⟩ := except_bind_ok h
      obtain ⟨text, h4, h⟩ := except_bind_ok h
      cases hse : text.isEmpty
      · rw [if_neg (by simp [hse])] at h
        obtain ⟨gu, h5, h⟩ := except_bind_ok h
        cases gu
        case str s2 =>
          simp only [epure_ok] at h
          cases h
          intro r hr
          rcases List.mem_singleton.mp hr with rfl
          rfl
        case arr xs =>
          simp only [epure_ok] at h
          cases h
          intro r hr
          rcases List.mem_singleton.mp hr with rfl
          rfl
        all_goals simp at h
      · rw [if_pos hse] at h
        simp only [epure_ok] at h
        cases h
        intro r hr
        simp at hr
    · rw [if_pos rfl] at h
      simp only [epure_ok] at h
      cases h
      intro r hr
      simp at hr
  · rw [if_pos rfl] at h
    simp only [epure_ok] at h
    cases h
    intro r hr
    simp at hr

theorem generationsRow_roles {aiId path : String} {kv : String × Raw} {l : List MsgRec}
    (h : generationsRow aiId path kv = .ok l) : ∀ r ∈ l, r.role = .str "user" := by
  unfold generationsRow at h
  rcases kv with ⟨k, raw⟩
  cases raw
  case sqlNull => simp at h
  case malformed =>
    cases h
    intro r hr
    simp at hr
  case json data =>
    cases data
    case arr items =>
      obtain ⟨ls, hls, h⟩ := except_bind_ok h
      simp only [epure_ok] at h
      cases h
      exact mapM_flatten_pred (fun b lb hb => generationItem_roles hb) items ls hls
    all_goals
      cases h
      intro r hr
      simp at hr

theorem generationsPart_roles {aiId path : String} {tbl : List (String × Raw)}
    {recs : List MsgRec} (h : generationsPart aiId tbl path = .ok recs) :
    ∀ r ∈ recs, r.role = .str "user" := by
  unfold generationsPart at h
  obtain ⟨ls, hls, h⟩ := except_bind_ok h
  simp only [epure_ok] at h
  cases h
  exact mapM_flatten_pred (fun b lb hb => generationsRow_roles hb) _ ls hls

theorem finalizePN_ne {username : String} (h1 : username ≠ "Home Directory")
    (h2 : username ≠ "Unknown Project") (pn : Option String) :
    finalizePN username pn ≠ username := by
  unfold finalizePN
  cases pn with
  | none => exact fun he => h2 he.symm
  | some p =>
    dsimp only
    by_cases hp : p = username
    · rw [if_pos hp]
      exact fun he => h1 he.symm
    · rw [if_neg hp]
      by_cases hpe : p = ""
      · rw [if_pos hpe]
        exact fun he => h2 he.symm
      · rw [if_neg hpe]
        exact hp

theorem corePN_ne {username : String} (h1 : username ≠ "Home Directory")
    (h2 : username ≠ "Unknown Project") (parts : List String) :
    corePN username parts ≠ username := by
  unfold corePN
  cases hui : userIdx parts with
  | none => exact finalizePN_ne h1 h2 _
  | some u =>
    dsimp only
    split
    · exact fun he => h1 he.symm
    · split
      · exact finalizePN_ne h1 h2 _
      · exact finalizePN_ne h1 h2 _

theorem corePN_users_home (username : String) :
    corePN username ["Users", username] = "Home Directory" := by
  have h : userIdx ["Users", username] = some 1 := rfl
  unfold corePN
  rw [h]
  dsimp only
  rw [if_pos ⟨by simp, rfl, by simp⟩]

theorem corePN_home_home (username : String) :
    corePN username ["home", username] = "Home Directory" := by
  have h : userIdx ["home", username] = some 1 := rfl
  unfold corePN
  rw [h]
  dsimp only
  rw [if_pos ⟨by simp, rfl, by simp⟩]

/-- C1: on a workspace database holding exactly one composer document
(composerId c1, name Demo, one user message hi) and a global database
holding exactly one bubble row bubbleId:c1:b1 of type 1 with text "hello
again", extract_chats returns exactly one session with id c1, title Demo
and the messages user-hi then user-"hello again" in that order. -/
theorem C1_concrete_scenario_extract_chats : extract_chats envC1s = .ok [chatC1s] := rfl

/-- C2 counterexample: workspace wA's composer document records the real
title "Real Title" for session c1, yet after workspace wB is scanned the
extracted session's title is the synthesized placeholder "Chat c1",
because the per-workspace metadata merge (server.py line 514) assigns
comp_meta unconditionally; so recorded metadata is overwritten by a
later, less-specific source. -/
theorem C2_counterexample_title_overwritten :
    ((workspace_info "u" dbA2).map (fun pm => (dFind? pm.2 (.str "c1")).map
        (fun m => m.title))) = .ok (some (.str "Real Title"))
    ∧ (extract_chats envC2x).map (fun l => l.map (fun c => c.title)) = .ok [.str "Chat c1"]
    ∧ (JValue.str "Chat c1") ≠ (.str "Real Title") := by
  refine ⟨rfl, rfl, ?_⟩
  intro he
  injection he with h2
  exact absurd h2 (by decide)

/-- C2 amended: first-writer-wins does hold at the guarded metadata
sites: merging a yielded record never overwrites existing comp_meta
(server.py lines 526-528, 545-547), and nothing in global-storage
processing (bubbles, composer documents, the global ItemTable chat data)
overwrites existing comp_meta; only the per-workspace metadata merge at
line 514 is last-writer-wins. -/
theorem C2_amended_first_writer_wins :
    (∀ (tag : String) (st : St) (r : MsgRec) (st2 : St) (cid : JValue) (m : Meta),
        metaOf st cid = some m → mergeRec tag st r = .ok st2 → metaOf st2 cid = some m)
    ∧ (∀ (st : St) (g : Db) (st2 : St) (cid : JValue) (m : Meta),
        metaOf st cid = some m → processGlobal st g = .ok st2 → metaOf st2 cid = some m) :=
  ⟨fun _ _ _ _ _ _ hm h => metaOf_mergeRec hm h,
   fun _ _ _ _ _ hm h => metaOf_processGlobal hm h⟩

/-- C2 witness: concrete instance of the amended first-writer-wins
property at a record whose session id already has metadata. -/
theorem C2_witness_first_writer_wins : metaOf stW2b (.str "a") = some defaultMeta :=
  C2_amended_first_writer_wins.1 "w" stW2 recW2 stW2b (.str "a") defaultMeta rfl rfl

/-- C3 counterexample: a session created solely by the global ItemTable
tabbed-chat shape has messages but no recorded db_path at all (server.py
lines 605-615 never set it), so its recorded database path does not
equal the path of the database that contributed its records. -/
theorem C3_counterexample_global_tab_no_db_path :
    (extract_chats envC3x).map (fun l => l.map (fun c => (c.dbPath, c.messages.length)))
        = .ok [(none, 1)]
    ∧ (none : Option String) ≠ some gDbC3x.path := by
  refine ⟨rfl, ?_⟩
  intro he
  cases he

/-- C3 amended: whenever a db_path has been recorded for a session, no
later processing overwrites it: workspace processing, global processing
and in particular the global ItemTable section (which never records a
db_path) all preserve a recorded path. -/
theorem C3_amended_db_path_first_writer :
    (∀ (username : String) (md5 : String → String) (st : St) (w : String × Db) (st2 : St)
        (cid : JValue) (p : String), dbPathOf st cid = some p →
        processWorkspace username md5 st w = .ok st2 → dbPathOf st2 cid = some p)
    ∧ (∀ (st : St) (g : Db) (st2 : St) (cid : JValue) (p : String),
        dbPathOf st cid = some p → processGlobal st g = .ok st2 → dbPathOf st2 cid = some p)
    ∧ (∀ (st : St) (g : Db) (cid : JValue),
        dbPathOf (globalItemTableSection st g) cid = dbPathOf st cid) :=
  ⟨fun _ _ _ _ _ _ _ hp h => dbPathOf_processWorkspace hp h,
   fun _ _ _ _ _ hp h => dbPathOf_processGlobal hp h,
   fun st g cid => globalItemTableSection_dbPathOf st g cid⟩

/-- C3 witness: concrete instance of db_path preservation through global
processing. -/
theorem C3_witness_db_path_first_writer : dbPathOf stW3 (.str "a") = some "p" :=
  C3_amended_db_path_first_writer.2.1 stW3 gEmptyDb stW3 (.str "a") "p" rfl rfl

/-- C4 counterexample: a composer-document message stored without a role
field is extracted with the passthrough default role "unknown"
(server.py line 124), which is neither user nor assistant, so not every
output message role is user or assistant. -/
theorem C4_counterexample_role_passthrough :
    (extract_chats envC4x).map (fun l => l.map (fun c => c.messages.map (fun m => m.role)))
        = .ok [[.str "unknown"]]
    ∧ ¬ ((JValue.str "unknown") = .str "user" ∨ (JValue.str "unknown") = .str "assistant") := by
  refine ⟨rfl, ?_⟩
  rintro (he | he) <;> (injection he with h2; exact absurd h2 (by decide))

/-- C4 amended: every record yielded by the bubble reader, the workspace
tabbed-chat shape, the legacy prompt-log shape and the legacy
generation-log shape has role user or assistant; only the composer
messages shape (server.py lines 123-127) passes the stored role field
through with default "unknown". -/
theorem C4_amended_roles_other_shapes :
    (∀ (db : Db) (recs : List MsgRec), iter_bubbles_from_disk_kv db = .ok recs →
        ∀ r ∈ recs, roleOk r)
    ∧ (∀ (tbl : List (String × Raw)) (path : String) (recs : List MsgRec),
        tabsPart tbl path = .ok recs → ∀ r ∈ recs, roleOk r)
    ∧ (∀ (aiId path : String) (tbl : List (String × Raw)) (recs : List MsgRec),
        promptsPart aiId tbl path = .ok recs → ∀ r ∈ recs, roleOk r)
    ∧ (∀ (aiId path : String) (tbl : List (String × Raw)) (recs : List MsgRec),
        generationsPart aiId tbl path = .ok recs → ∀ r ∈ recs, roleOk r) := by
  refine ⟨?_, ?_, ?_, ?_⟩
  · intro db recs h r hr
    exact iter_bubbles_roles h r hr
  · intro tbl path recs h r hr
    exact tabsPart_roles h r hr
  · intro aiId path tbl recs h r hr
    exact Or.inl (promptsPart_roles h r hr)
  · intro aiId path tbl recs h r hr
    exact Or.inl (generationsPart_roles h r hr)

/-- C4 witness: the amended role property evaluated on a concrete bubble
database. -/
theorem C4_witness_roles_other_shapes : ∀ r ∈ [recW4], roleOk r :=
  C4_amended_roles_other_shapes.1 gDbW4 [recW4] rfl

/-- C5 counterexample: with the current account name alice, a workspace
recording the git repository file URI ending in Users/alice resolves the
project name to "alice" through the repository fallback (server.py lines
694-711 take the last path segment with no username check, and lines
796-800 install it over the Home Directory label), so a resolved project
name can equal the account name. -/
theorem C5_counterexample_git_username :
    extract_project_from_git_repos "w5" (some gitDbC5) = some "alice"
    ∧ gitFallbackName "Home Directory" (extract_project_from_git_repos "w5" (some gitDbC5))
        = "alice" := ⟨rfl, rfl⟩

/-- C5 amended: the path-based resolver never returns the account name
(whenever that name is not one of its fixed labels Root, Home Directory,
Unknown Project), and a path that is exactly the home directory resolves
to the Home Directory label; only the git-repository fallback can return
the account name. -/
theorem C5_amended_project_name_safety :
    (∀ username rootPath : String, username ≠ "Root" → username ≠ "Home Directory" →
        username ≠ "Unknown Project" →
        extract_project_name_from_path username rootPath ≠ username)
    ∧ (∀ username : String, corePN username ["Users", username] = "Home Directory"
        ∧ corePN username ["home", username] = "Home Directory") := by
  constructor
  · intro username rootPath h0 h1 h2
    unfold extract_project_name_from_path
    split
    · exact fun he => h0 he.symm
    · exact corePN_ne h1 h2 _
  · intro username
    exact ⟨corePN_users_home username, corePN_home_home username⟩

/-- C5 witness: the amended safety property at concrete inputs. -/
theorem C5_witness_project_name_safety :
    extract_project_name_from_path "alice" "/Users/bob/proj" ≠ "alice"
    ∧ corePN "alice" ["Users", "alice"] = "Home Directory" :=
  ⟨C5_amended_project_name_safety.1 "alice" "/Users/bob/proj" (by decide) (by decide)
      (by decide),
   (C5_amended_project_name_safety.2 "alice").1⟩

/-- C6: on a supported OS, a global bubble row whose stored value is the
valid JSON number 5 makes extract_chats raise AttributeError (b.get on a
non-dict at server.py line 79, outside every handler), refuting the
claim that only a failure to locate the storage root can abort the run
and that a malformed row is always skipped. -/
theorem C6_crash_on_nonobject_bubble :
    extract_chats envBadC6 = .error .attributeError := rfl

/-- C7: every record yielded by the legacy generation-log shape has role
user (never assistant), and an entry whose textDescription is a string
with non-empty stripped text yields exactly that user message. -/
theorem C7_generation_log_user_role :
    (∀ (aiId path : String) (tbl : List (String × Raw)) (recs : List MsgRec),
        generationsPart aiId tbl path = .ok recs → ∀ r ∈ recs, r.role = .str "user")
    ∧ (∀ (aiId path k s : String), strStartsWith k "aiService.generations" = true →
        (strTrim s).isEmpty = false →
        generationsPart aiId [(k, .json (.arr [.obj [("textDescription", .str s)]]))] path
          = .ok [{cid := .str aiId, role := .str "user", text := .str (strTrim s), path}]) := by
  constructor
  · intro aiId path tbl recs h r hr
    exact generationsPart_roles h r hr
  · intro aiId path k s hk hts
    have hs : s.isEmpty = false := by
      cases hx : s.isEmpty
      · rfl
      · have he : s = "" := (String.isEmpty_iff s).mp hx
        subst he
        rw [show strTrim "" = "" from rfl] at hts
        exact absurd hts (by decide)
    have hitem : generationItem aiId path (.obj [("textDescription", .str s)])
        = .ok [{cid := .str aiId, role := .str "user", text := .str (strTrim s), path}] := by
      simp [generationItem, pyInJ, dictFind?, List.find?, JValue.pyGet, JValue.pyGetD,
        pyStrip, truthy, hs, hts]
    have hrow : generationsRow aiId path
        (k, .json (.arr [.obj [("textDescription", .str s)]]))
        = .ok [{cid := .str aiId, role := .str "user", text := .str (strTrim s), path}] := by
      unfold generationsRow
      dsimp only
      rw [List.mapM_cons, List.mapM_nil, hitem]
      rfl
    unfold generationsPart
    rw [show List.filter (fun kv => strStartsWith kv.1 "aiService.generations")
        [(k, Raw.json (.arr [.obj [("textDescription", .str s)]]))]
        = [(k, Raw.json (.arr [.obj [("textDescription", .str s)]]))] from by
      simp [List.filter_cons, hk]]
    rw [List.mapM_cons, List.mapM_nil, hrow]
    rfl

/-- C7 witness: the generation-log property at a concrete row. -/
theorem C7_witness_generation_log :
    generationsPart "ai"
        [("aiService.generations", .json (.arr [.obj [("textDescription", .str "hello")]]))]
        "p"
      = .ok [{cid := .str "ai", role := .str "user", text := .str (strTrim "hello"),
              path := "p"}] :=
  C7_generation_log_user_role.2 "ai" "p" "aiService.generations" "hello" rfl rfl

/-- C8 counterexample: with one composer whose lastUpdatedAt is the
present value -5 and one with no lastUpdatedAt, the session with the
missing timestamp sorts before the session with the present one, because
the sort key maps missing to 0 rather than to a minimum (server.py line
645); so a missing lastUpdatedAt does not sort after every present one. -/
theorem C8_counterexample_missing_sorts_first :
    (extract_chats envC8x).map (fun l => l.map (fun c => (c.composerId, c.lastUpdatedAt)))
      = .ok [(.str "c2", .null), (.str "c1", .num (-5))]
    ∧ truthy .null = false ∧ truthy (.num (-5)) = true := ⟨rfl, rfl, rfl⟩

/-- C8 amended: the output of extract_chats is sorted in descending
order of the key (lastUpdatedAt when truthy, else 0), stated here for
runs whose keys are all integers; a missing lastUpdatedAt therefore
sorts after every positive timestamp but before negative ones. -/
theorem C8_amended_sorted_descending (env : Env) (out : List Chat)
    (h : extract_chats env = .ok out)
    (hkeys : ∀ c ∈ out, (intKey? (chatKey c)).isSome = true) :
    out.Pairwise (fun a b => (intKey? (chatKey b)).getD 0 ≤ (intKey? (chatKey a)).getD 0) := by
  unfold extract_chats at h
  obtain ⟨r0, hr0, h⟩ := except_bind_ok h
  obtain ⟨st1, hst1, h⟩ := except_bind_ok h
  obtain ⟨st2, hst2, h⟩ := except_bind_ok h
  exact pySortChats_pairwise h hkeys

/-- C8 witness: the amended sortedness property on a concrete run. -/
theorem C8_witness_sorted_descending :
    List.Pairwise (fun a b => (intKey? (chatKey b)).getD 0 ≤ (intKey? (chatKey a)).getD 0)
      [chatW8] :=
  C8_amended_sorted_descending envW8 [chatW8] rfl
    (by intro c hc; rw [List.mem_singleton.mp hc]; rfl)

/-- C9: a tabbed-chat bubble whose type field is missing or falsy
contributes no message through the workspace reader, but the global
ItemTable reader classifies the same bubble as an assistant message:
gBubbleCore appends an assistant message for it. -/
theorem C9_typeless_bubble_disagreement
    (bf : List (String × JValue)) (s tid path : String)
    (ht : truthy ((dictFind? bf "type").getD .null) = false)
    (htx : dictFind? bf "text" = some (.str s)) (hs : s.isEmpty = false) :
    tabBubble (.str tid) path (.obj bf) = .ok []
    ∧ ∀ st : St, gBubbleCore (.str tid) st (.obj bf)
        = sessAppendMsg st (.str tid) {role := .str "assistant", content := .str s} := by
  constructor
  · simp [tabBubble, JValue.pyGet, ht]
  · intro st
    simp [gBubbleCore, gBubbleContent, pyInJ, htx, JValue.pySub, hs,
      JValue.pyGet, pyEqStr_user_falsy ht]

/-- C9 witness: the disagreement at a concrete typeless bubble. -/
theorem C9_witness_typeless_bubble :
    tabBubble (.str "t1") "p" (.obj [("text", .str "hi")]) = .ok []
    ∧ ∀ st : St, gBubbleCore (.str "t1") st (.obj [("text", .str "hi")])
        = sessAppendMsg st (.str "t1") {role := .str "assistant", content := .str "hi"} :=
  C9_typeless_bubble_disagreement [("text", .str "hi")] "hi" "t1" "p" rfl rfl rfl

/-- C10: when the stored tabbed-chat document or composer-data document
fails to parse, helper j yields none and the whole shape contributes
nothing from that database, with no exception raised. -/
theorem C10_document_parse_failure_drops_shape
    (tbl : List (String × Raw)) (path : String)
    (h1 : List.find? (fun e => e.1 == chatdataKey) tbl = some (chatdataKey, .malformed))
    (h2 : List.find? (fun e => e.1 == composerDataKey) tbl
        = some (composerDataKey, .malformed)) :
    jlookup tbl chatdataKey = none ∧ jlookup tbl composerDataKey = none
    ∧ tabsPart tbl path = .ok [] ∧ composerPart tbl path = .ok [] := by
  have hj1 : jlookup tbl chatdataKey = none := by
    unfold jlookup
    rw [h1]
  have hj2 : jlookup tbl composerDataKey = none := by
    unfold jlookup
    rw [h2]
  refine ⟨hj1, hj2, ?_, ?_⟩
  · unfold tabsPart
    rw [hj1]
  · unfold composerPart
    rw [hj2]

/-- C10 witness: the parse-failure property at a concrete table. -/
theorem C10_witness_document_parse_failure :
    jlookup [(chatdataKey, Raw.malformed), (composerDataKey, Raw.malformed)] chatdataKey
        = none
    ∧ jlookup [(chatdataKey, Raw.malformed), (composerDataKey, Raw.malformed)]
        composerDataKey = none
    ∧ tabsPart [(chatdataKey, Raw.malformed), (composerDataKey, Raw.malformed)] "p" = .ok []
    ∧ composerPart [(chatdataKey, Raw.malformed), (composerDataKey, Raw.malformed)] "p"
        = .ok [] :=
  C10_document_parse_failure_drops_shape
    [(chatdataKey, Raw.malformed), (composerDataKey, Raw.malformed)] "p" rfl rfl
